import Mathlib

/-!
Verification of the multi-recipient shipping checkout customization
(CustomShipping.tsx and consignment-persistence.ts).

The development shallowly embeds the consignment orchestration core:
the session-storage consignment cache, the remote consignment snapshot,
the initialization/reconciliation pass, and the wizard handlers
(continue, address select, shipping-option select, edit, split).
Machine state that the component keeps in React state hooks is made an
explicit record; every Gateway (storefront API) mutation is recorded in
an explicit event trace; fallible browser-storage primitives are given
an exception layer via Except.
-/

namespace MMCheckout

/-- Delivery date value carried by a cached consignment record
(consignment-persistence.ts, StoredConsignment.selectedDeliveryDate). -/
structure DeliveryDate where
  display : String
  iso : String
  value : Nat
deriving DecidableEq, Repr

/-- One record of the durable session cache
(consignment-persistence.ts, interface StoredConsignment).
Line-item ids are compared via toString in the source, so they are
modelled as strings; the shipping address is an opaque token. -/
structure StoredConsignment where
  consignmentId : String
  lineItemId : String
  quantity : Nat
  shippingAddress : Option String
  selectedShippingOptionId : String
  selectedDeliveryDate : Option DeliveryDate
deriving DecidableEq, Repr

/-- Upsert of the parsed session store
(consignment-persistence.ts, saveConsignmentToSession lines 29-57):
findIndex on consignmentId, then in-place replacement or push. -/
def saveConsignmentToSession (consignmentId : String) (lineItemId : String)
    (quantity : Nat) (shippingAddress : Option String)
    (selectedShippingOptionId : String) (selectedDeliveryDate : Option DeliveryDate)
    (storedConsignments : List StoredConsignment) : List StoredConsignment :=
  let consignmentData : StoredConsignment :=
    { consignmentId, lineItemId, quantity, shippingAddress,
      selectedShippingOptionId, selectedDeliveryDate }
  match storedConsignments.findIdx? (fun c => c.consignmentId == consignmentId) with
  | some existingIndex => storedConsignments.set existingIndex consignmentData
  | none => storedConsignments ++ [consignmentData]

/-- First record matching a (lineItemId, quantity) pair
(consignment-persistence.ts, findStoredConsignmentByLineItemId lines 105-114). -/
def findStoredConsignmentByLineItemId (lineItemId : String) (quantity : Nat)
    (storedConsignments : List StoredConsignment) : Option StoredConsignment :=
  storedConsignments.find? (fun c => c.lineItemId == lineItemId && c.quantity == quantity)

/-- First record matching a consignment id
(consignment-persistence.ts, findStoredConsignmentById lines 117-122). -/
def findStoredConsignmentById (consignmentId : String)
    (storedConsignments : List StoredConsignment) : Option StoredConsignment :=
  storedConsignments.find? (fun c => c.consignmentId == consignmentId)

/-- Alias of the upsert (consignment-persistence.ts, updateStoredConsignment
lines 125-145 simply forwards to saveConsignmentToSession). -/
def updateStoredConsignment (consignmentId : String) (lineItemId : String)
    (quantity : Nat) (shippingAddress : Option String)
    (selectedShippingOptionId : String) (selectedDeliveryDate : Option DeliveryDate)
    (storedConsignments : List StoredConsignment) : List StoredConsignment :=
  saveConsignmentToSession consignmentId lineItemId quantity shippingAddress
    selectedShippingOptionId selectedDeliveryDate storedConsignments

/-- Record removal by consignment id
(consignment-persistence.ts, removeStoredConsignment lines 148-156). -/
def removeStoredConsignment (consignmentId : String)
    (storedConsignments : List StoredConsignment) : List StoredConsignment :=
  storedConsignments.filter (fun c => c.consignmentId != consignmentId)

/-- Unfolding of the upsert on a cons cell: the head is replaced when its
consignment id matches, otherwise the upsert recurses into the tail. -/
theorem saveConsignmentToSession_cons (cid lid : String) (q : Nat)
    (addr : Option String) (optId : String) (dd : Option DeliveryDate)
    (c : StoredConsignment) (rest : List StoredConsignment) :
    saveConsignmentToSession cid lid q addr optId dd (c :: rest) =
      if c.consignmentId == cid then
        (⟨cid, lid, q, addr, optId, dd⟩ : StoredConsignment) :: rest
      else
        c :: saveConsignmentToSession cid lid q addr optId dd rest := by
  by_cases h : c.consignmentId == cid
  · simp [saveConsignmentToSession, List.findIdx?_cons, h]
  · simp only [saveConsignmentToSession, List.findIdx?_cons, h, if_neg]
    cases hfi : List.findIdx? (fun r => r.consignmentId == cid) rest with
    | none => simp [h, hfi]
    | some i => simp [h, hfi]

/-- After an upsert, the records carrying the saved consignment id are exactly
the one saved record, provided the store held no duplicate consignment ids. -/
theorem saveConsignmentToSession_filter_eq (cid lid : String) (q : Nat)
    (addr : Option String) (optId : String) (dd : Option DeliveryDate)
    (store : List StoredConsignment)
    (hnd : (store.map (fun r => r.consignmentId)).Nodup) :
    (saveConsignmentToSession cid lid q addr optId dd store).filter
        (fun r => r.consignmentId == cid) =
      [⟨cid, lid, q, addr, optId, dd⟩] := by
  induction store with
  | nil => simp [saveConsignmentToSession, List.filter]
  | cons c rest ih =>
    rw [saveConsignmentToSession_cons]
    by_cases h : c.consignmentId == cid
    · simp only [h, if_pos]
      have hcid : c.consignmentId = cid := by simpa using h
      simp only [List.map_cons, List.nodup_cons] at hnd
      have hrest : ∀ r ∈ rest, ¬(r.consignmentId == cid) := by
        intro r hr
        have := hnd.1
        simp only [List.mem_map] at this
        intro hc
        exact this ⟨r, hr, by have := of_decide_eq_true hc; rw [this, hcid]⟩
      simp only [List.filter_cons]
      simp only [beq_self_eq_true, if_pos, List.cons.injEq, true_and]
      rw [List.filter_eq_nil_iff.mpr hrest]
    · simp only [h, if_neg, Bool.false_eq_true, not_false_iff]
      simp only [List.map_cons, List.nodup_cons] at hnd
      simp only [List.filter_cons, h]
      exact ih hnd.2

/-- Every record of an upserted store is an old record or the saved one. -/
theorem saveConsignmentToSession_mem (cid lid : String) (q : Nat)
    (addr : Option String) (optId : String) (dd : Option DeliveryDate)
    (store : List StoredConsignment) (r : StoredConsignment)
    (hr : r ∈ saveConsignmentToSession cid lid q addr optId dd store) :
    r ∈ store ∨ r = ⟨cid, lid, q, addr, optId, dd⟩ := by
  induction store with
  | nil =>
    simp only [saveConsignmentToSession, List.findIdx?_nil,
      List.nil_append] at hr
    simp only [List.mem_singleton] at hr
    exact Or.inr hr
  | cons d ds ihd =>
    rw [saveConsignmentToSession_cons] at hr
    by_cases hd : d.consignmentId == cid
    · simp only [hd, if_pos, List.mem_cons] at hr
      rcases hr with hr | hr
      · exact Or.inr hr
      · exact Or.inl (List.mem_cons_of_mem _ hr)
    · simp only [hd, if_neg, Bool.false_eq_true, not_false_iff,
        List.mem_cons] at hr
      rcases hr with hr | hr
      · exact Or.inl (hr ▸ List.mem_cons_self _ _)
      · rcases ihd hr with h1 | h1
        · exact Or.inl (List.mem_cons_of_mem _ h1)
        · exact Or.inr h1

/-- The upsert preserves the no-duplicate-consignment-id invariant. -/
theorem saveConsignmentToSession_nodup (cid lid : String) (q : Nat)
    (addr : Option String) (optId : String) (dd : Option DeliveryDate)
    (store : List StoredConsignment)
    (hnd : (store.map (fun r => r.consignmentId)).Nodup) :
    ((saveConsignmentToSession cid lid q addr optId dd store).map
        (fun r => r.consignmentId)).Nodup := by
  induction store with
  | nil => simp [saveConsignmentToSession]
  | cons c rest ih =>
    rw [saveConsignmentToSession_cons]
    simp only [List.map_cons, List.nodup_cons] at hnd
    by_cases h : c.consignmentId == cid
    · have hcid : c.consignmentId = cid := by simpa using h
      simp only [h, if_pos, List.map_cons, List.nodup_cons]
      refine ⟨?_, hnd.2⟩
      intro hc
      exact hnd.1 (by rw [hcid]; exact hc)
    · simp only [h, if_neg, Bool.false_eq_true, not_false_iff, List.map_cons,
        List.nodup_cons]
      refine ⟨?_, ih hnd.2⟩
      intro hc
      have hmem := List.mem_map.mp hc
      obtain ⟨r, hr, hrcid⟩ := hmem
      rcases saveConsignmentToSession_mem cid lid q addr optId dd rest r hr
        with hsub | hsub
      · exact hnd.1 (List.mem_map.mpr ⟨r, hsub, hrcid⟩)
      · rw [hsub] at hrcid
        simp only at hrcid
        rw [hrcid] at h
        simp at h

/-- Saving twice with the same arguments leaves the store as after one save. -/
theorem saveConsignmentToSession_idem (cid lid : String) (q : Nat)
    (addr : Option String) (optId : String) (dd : Option DeliveryDate)
    (store : List StoredConsignment) :
    saveConsignmentToSession cid lid q addr optId dd
        (saveConsignmentToSession cid lid q addr optId dd store) =
      saveConsignmentToSession cid lid q addr optId dd store := by
  induction store with
  | nil =>
    simp [saveConsignmentToSession, List.findIdx?_cons]
  | cons c rest ih =>
    rw [saveConsignmentToSession_cons]
    by_cases h : c.consignmentId == cid
    · simp only [h, if_pos]
      rw [saveConsignmentToSession_cons]
      simp
    · simp only [h, if_neg, Bool.false_eq_true, not_false_iff]
      rw [saveConsignmentToSession_cons]
      simp only [h, if_neg, Bool.false_eq_true, not_false_iff]
      rw [ih]

/-- Lookup by (lineItemId, quantity) after an upsert returns the saved record,
provided every record already matching that pair carries the saved consignment
id (so the saved record is the first match). -/
theorem findStoredConsignmentByLineItemId_after_save (cid lid : String) (q : Nat)
    (addr : Option String) (optId : String) (dd : Option DeliveryDate)
    (store : List StoredConsignment)
    (hkey : ∀ r ∈ store, r.lineItemId = lid → r.quantity = q →
      r.consignmentId = cid) :
    findStoredConsignmentByLineItemId lid q
        (saveConsignmentToSession cid lid q addr optId dd store) =
      some ⟨cid, lid, q, addr, optId, dd⟩ := by
  induction store with
  | nil =>
    simp [saveConsignmentToSession, findStoredConsignmentByLineItemId]
  | cons c rest ih =>
    rw [saveConsignmentToSession_cons]
    by_cases h : c.consignmentId == cid
    · rw [if_pos h]
      simp [findStoredConsignmentByLineItemId]
    · rw [if_neg h]
      have hc : ¬(c.lineItemId == lid && c.quantity == q) = true := by
        intro hmatch
        simp only [Bool.and_eq_true, beq_iff_eq] at hmatch
        have := hkey c (List.mem_cons_self _ _) hmatch.1 hmatch.2
        rw [this] at h
        simp at h
      unfold findStoredConsignmentByLineItemId at *
      have hcf : (c.lineItemId == lid && c.quantity == q) = false := by
        simpa using hc
      simp only [List.find?_cons, hcf]
      exact ih (fun r hr => hkey r (List.mem_cons_of_mem _ hr))

/-- Shipping option as returned by the Gateway; only the id is relevant to
selection, persistence and restoration (option.id in CustomShipping.tsx). -/
structure ShippingOption where
  id : String
deriving DecidableEq, Repr

/-- Physical cart line item (CustomShipping.tsx, interface LineItem); gift
wrapping and image are irrelevant to the orchestration core. Ids are compared
via toString in the source and therefore modelled as strings. -/
structure LineItem where
  id : String
  name : String
  quantity : Nat
deriving DecidableEq, Repr

/-- Cache effect of the success path of handleShippingOptionSelect
(CustomShipping.tsx lines 663-670): once the Gateway PUT has returned the
updated consignment, updateStoredConsignment is called with the updated
consignment id, the current item id and quantity, the returned shipping
address and the id of the option just selected (no delivery date). -/
def handleShippingOptionSelectCache (updatedConsignmentId : String)
    (item : LineItem) (returnedAddress : Option String) (option : ShippingOption)
    (store : List StoredConsignment) : List StoredConsignment :=
  updateStoredConsignment updatedConsignmentId item.id item.quantity
    returnedAddress option.id none store

/-- C9: the session cache never holds two records with the same consignmentId;
saveConsignmentToSession is an upsert keyed by consignmentId, so after a save
on a store without duplicate consignment ids the store holds exactly one
record for that id, equal to the data just saved, and saving twice with the
same arguments leaves the store unchanged after the first save. -/
theorem cache_upsert_unique_per_consignment_id (cid lid : String) (q : Nat)
    (addr : Option String) (optId : String) (dd : Option DeliveryDate)
    (store : List StoredConsignment)
    (hnd : (store.map (fun r => r.consignmentId)).Nodup) :
    (saveConsignmentToSession cid lid q addr optId dd store).filter
        (fun r => r.consignmentId == cid) =
        [⟨cid, lid, q, addr, optId, dd⟩] ∧
    ((saveConsignmentToSession cid lid q addr optId dd store).map
        (fun r => r.consignmentId)).Nodup ∧
    saveConsignmentToSession cid lid q addr optId dd
        (saveConsignmentToSession cid lid q addr optId dd store) =
      saveConsignmentToSession cid lid q addr optId dd store :=
  ⟨saveConsignmentToSession_filter_eq cid lid q addr optId dd store hnd,
   saveConsignmentToSession_nodup cid lid q addr optId dd store hnd,
   saveConsignmentToSession_idem cid lid q addr optId dd store⟩

/-- Witness for C9 at a concrete store. -/
theorem cache_upsert_unique_per_consignment_id_witness :
    (([⟨"c0", "L9", 2, none, "optZ", none⟩] :
        List StoredConsignment).map (fun r => r.consignmentId)).Nodup ∧
    ((saveConsignmentToSession "c1" "L1" 1 (some "addr") "optA" none
        [⟨"c0", "L9", 2, none, "optZ", none⟩]).filter
          (fun r => r.consignmentId == "c1") =
        [⟨"c1", "L1", 1, some "addr", "optA", none⟩] ∧
      ((saveConsignmentToSession "c1" "L1" 1 (some "addr") "optA" none
          [⟨"c0", "L9", 2, none, "optZ", none⟩]).map
            (fun r => r.consignmentId)).Nodup ∧
      saveConsignmentToSession "c1" "L1" 1 (some "addr") "optA" none
          (saveConsignmentToSession "c1" "L1" 1 (some "addr") "optA" none
            [⟨"c0", "L9", 2, none, "optZ", none⟩]) =
        saveConsignmentToSession "c1" "L1" 1 (some "addr") "optA" none
          [⟨"c0", "L9", 2, none, "optZ", none⟩]) :=
  ⟨by decide,
   cache_upsert_unique_per_consignment_id "c1" "L1" 1 (some "addr") "optA" none
     [⟨"c0", "L9", 2, none, "optZ", none⟩] (by decide)⟩

/-- C3 counterexample: the cache round-trip fails as universally stated. With
a stale record for the same (lineItemId, quantity) stored under an older
consignment id, a successful shipping-option selection saved under a new
consignment id appends a second record, and the lookup returns the stale
first match, whose selectedShippingOptionId is not the id just selected. -/
theorem cache_roundtrip_counterexample :
    (findStoredConsignmentByLineItemId "L1" 1
        (handleShippingOptionSelectCache "c2" ⟨"L1", "Widget", 1⟩ (some "addr")
          ⟨"optB"⟩ [⟨"c1", "L1", 1, some "addr0", "optA", none⟩])).map
        (fun r => r.selectedShippingOptionId) = some "optA" ∧
      "optA" ≠ "optB" := by
  constructor
  · rfl
  · decide

/-- C3 (amended): after the success path of handleShippingOptionSelect saves
the selection, looking the cache up by the item (lineItemId, quantity) pair
returns a record whose selectedShippingOptionId equals the id of the selected
option, provided every record already matching that pair is keyed by the same
updated consignment id (in particular when the cache holds no stale record
for the pair under an older consignment id). -/
theorem cache_roundtrip_after_option_select (updatedConsignmentId : String)
    (item : LineItem) (returnedAddress : Option String) (option : ShippingOption)
    (store : List StoredConsignment)
    (hkey : ∀ r ∈ store, r.lineItemId = item.id → r.quantity = item.quantity →
      r.consignmentId = updatedConsignmentId) :
    (findStoredConsignmentByLineItemId item.id item.quantity
        (handleShippingOptionSelectCache updatedConsignmentId item
          returnedAddress option store)).map
        (fun r => r.selectedShippingOptionId) = some option.id := by
  unfold handleShippingOptionSelectCache updateStoredConsignment
  rw [findStoredConsignmentByLineItemId_after_save updatedConsignmentId item.id
    item.quantity returnedAddress option.id none store hkey]
  rfl

/-- Witness for C3 at a concrete item, option and store. -/
theorem cache_roundtrip_after_option_select_witness :
    (∀ r ∈ ([⟨"c7", "L1", 1, some "addr0", "optA", none⟩] :
        List StoredConsignment), r.lineItemId = "L1" → r.quantity = 1 →
        r.consignmentId = "c7") ∧
    (findStoredConsignmentByLineItemId "L1" 1
        (handleShippingOptionSelectCache "c7" ⟨"L1", "Widget", 1⟩ (some "addr")
          ⟨"optB"⟩ [⟨"c7", "L1", 1, some "addr0", "optA", none⟩])).map
        (fun r => r.selectedShippingOptionId) = some "optB" :=
  ⟨by decide,
   cache_roundtrip_after_option_select "c7" ⟨"L1", "Widget", 1⟩ (some "addr")
     ⟨"optB"⟩ [⟨"c7", "L1", 1, some "addr0", "optA", none⟩] (by decide)⟩

/-- Raw content of the sessionStorage slot backing the cache
(key storedConsignments): the key can be absent, hold a string that
JSON.parse rejects, or hold a well-formed encoding of a record list. -/
inductive StorageContent where
  | absent
  | malformed
  | wellFormed (records : List StoredConsignment)
deriving DecidableEq, Repr

/-- Body of getStoredConsignments before its catch clause
(consignment-persistence.ts lines 94-102): a missing string yields the empty
list, a malformed one makes JSON.parse throw. -/
def getStoredConsignmentsBody (storage : StorageContent) :
    Except String (List StoredConsignment) :=
  match storage with
  | .absent => .ok []
  | .malformed => .error "JSON.parse: unexpected token"
  | .wellFormed records => .ok records

/-- Public getStoredConsignments: the catch clause converts any thrown error
into the empty list, so the operation itself never throws. -/
def getStoredConsignmentsOp (storage : StorageContent) :
    Except String (List StoredConsignment) :=
  match getStoredConsignmentsBody storage with
  | .ok records => .ok records
  | .error _ => .ok []

/-- Public findStoredConsignmentByLineItemId over the storage layer: it reads
through the already-caught getStoredConsignments (lines 105-114). -/
def findStoredConsignmentByLineItemIdOp (lineItemId : String) (quantity : Nat)
    (storage : StorageContent) : Except String (Option StoredConsignment) :=
  match getStoredConsignmentsOp storage with
  | .ok records => .ok (findStoredConsignmentByLineItemId lineItemId quantity records)
  | .error e => .error e

/-- Public findStoredConsignmentById over the storage layer (lines 117-122). -/
def findStoredConsignmentByIdOp (consignmentId : String)
    (storage : StorageContent) : Except String (Option StoredConsignment) :=
  match getStoredConsignmentsOp storage with
  | .ok records => .ok (findStoredConsignmentById consignmentId records)
  | .error e => .error e

/-- Body of saveConsignmentToSession before its catch clause (lines 29-57):
JSON.parse throws on a malformed stored string, and sessionStorage.setItem
may itself throw, which the Boolean oracle setItemFails models. -/
def saveConsignmentToSessionBody (setItemFails : Bool) (consignmentId : String)
    (lineItemId : String) (quantity : Nat) (shippingAddress : Option String)
    (selectedShippingOptionId : String) (selectedDeliveryDate : Option DeliveryDate)
    (storage : StorageContent) : Except String StorageContent :=
  match storage with
  | .malformed => .error "JSON.parse: unexpected token"
  | .absent =>
    if setItemFails then .error "QuotaExceededError"
    else .ok (.wellFormed (saveConsignmentToSession consignmentId lineItemId
      quantity shippingAddress selectedShippingOptionId selectedDeliveryDate []))
  | .wellFormed records =>
    if setItemFails then .error "QuotaExceededError"
    else .ok (.wellFormed (saveConsignmentToSession consignmentId lineItemId
      quantity shippingAddress selectedShippingOptionId selectedDeliveryDate records))

/-- Public saveConsignmentToSession: the catch clause logs and swallows any
storage exception, leaving the stored string unchanged. -/
def saveConsignmentToSessionOp (setItemFails : Bool) (consignmentId : String)
    (lineItemId : String) (quantity : Nat) (shippingAddress : Option String)
    (selectedShippingOptionId : String) (selectedDeliveryDate : Option DeliveryDate)
    (storage : StorageContent) : Except String StorageContent :=
  match saveConsignmentToSessionBody setItemFails consignmentId lineItemId
      quantity shippingAddress selectedShippingOptionId selectedDeliveryDate
      storage with
  | .ok updated => .ok updated
  | .error _ => .ok storage

/-- Body of removeStoredConsignment before its catch clause (lines 148-156):
the read goes through the already-caught getStoredConsignments, so only the
final sessionStorage.setItem can throw. -/
def removeStoredConsignmentBody (setItemFails : Bool) (consignmentId : String)
    (storage : StorageContent) : Except String StorageContent :=
  let stored := match getStoredConsignmentsOp storage with
    | .ok records => records
    | .error _ => []
  if setItemFails then .error "QuotaExceededError"
  else .ok (.wellFormed (removeStoredConsignment consignmentId stored))

/-- Public removeStoredConsignment: the catch clause swallows any storage
exception, leaving the stored string unchanged. -/
def removeStoredConsignmentOp (setItemFails : Bool) (consignmentId : String)
    (storage : StorageContent) : Except String StorageContent :=
  match removeStoredConsignmentBody setItemFails consignmentId storage with
  | .ok updated => .ok updated
  | .error _ => .ok storage

/-- C10: every cache operation is total at its public interface.
getStoredConsignments returns the empty list and both find functions return
none when the session storage slot is absent or malformed, and the save and
remove operations swallow storage exceptions, so no public cache operation
ever propagates an error to its caller, for any storage content and any
behaviour of sessionStorage.setItem. -/
theorem cache_operations_total :
    (getStoredConsignmentsOp .absent = .ok [] ∧
      getStoredConsignmentsOp .malformed = .ok []) ∧
    (∀ lineItemId quantity,
      findStoredConsignmentByLineItemIdOp lineItemId quantity .absent = .ok none ∧
      findStoredConsignmentByLineItemIdOp lineItemId quantity .malformed = .ok none) ∧
    (∀ consignmentId,
      findStoredConsignmentByIdOp consignmentId .absent = .ok none ∧
      findStoredConsignmentByIdOp consignmentId .malformed = .ok none) ∧
    (∀ storage, ∃ records, getStoredConsignmentsOp storage = .ok records) ∧
    (∀ lineItemId quantity storage, ∃ result,
      findStoredConsignmentByLineItemIdOp lineItemId quantity storage = .ok result) ∧
    (∀ consignmentId storage, ∃ result,
      findStoredConsignmentByIdOp consignmentId storage = .ok result) ∧
    (∀ setItemFails consignmentId lineItemId quantity shippingAddress
        selectedShippingOptionId selectedDeliveryDate storage, ∃ updated,
      saveConsignmentToSessionOp setItemFails consignmentId lineItemId quantity
          shippingAddress selectedShippingOptionId selectedDeliveryDate storage =
        .ok updated) ∧
    (∀ setItemFails consignmentId storage, ∃ updated,
      removeStoredConsignmentOp setItemFails consignmentId storage = .ok updated) := by
  refine ⟨⟨rfl, rfl⟩, fun _ _ => ⟨rfl, rfl⟩, fun _ => ⟨rfl, rfl⟩, ?_, ?_, ?_, ?_, ?_⟩
  · intro storage
    cases storage <;> exact ⟨_, rfl⟩
  · intro _ _ storage
    cases storage <;> exact ⟨_, rfl⟩
  · intro _ storage
    cases storage <;> exact ⟨_, rfl⟩
  · intro setItemFails _ _ _ _ _ _ storage
    cases storage <;> cases setItemFails <;> exact ⟨_, rfl⟩
  · intro setItemFails _ storage
    cases storage <;> cases setItemFails <;> exact ⟨_, rfl⟩

/-- Remote consignment as returned by the storefront Gateway
(CustomShipping.tsx, the consignments prop and checkout refetches). -/
structure Consignment where
  id : String
  lineItemIds : List String
  shippingAddress : Option String
  selectedShippingOption : Option ShippingOption
  availableShippingOptions : List ShippingOption
deriving DecidableEq, Repr

/-- Gateway call recorded in a trace: the PUT that sets a shipping option on
an existing consignment (restoreConsignment), the DELETE of one consignment,
the SDK deleteConsignments call that removes them all, the POST creating a
single-item consignment, the PUT replacing address and items of an existing
consignment, and a checkout read or refresh. -/
inductive GatewayEvent where
  | setShippingOption (consignmentId : String) (shippingOptionId : String)
  | deleteConsignment (consignmentId : String)
  | deleteAllConsignments
  | createConsignment (lineItemId : String) (quantity : Nat)
  | updateConsignmentAddress (consignmentId : String) (lineItemId : String)
      (quantity : Nat)
  | readCheckout
deriving DecidableEq, Repr

/-- Effect on the remote state of a successful PUT of a shipping option id
onto the consignment with the given id. -/
def applySetShippingOption (gateway : List Consignment) (consignmentId : String)
    (shippingOptionId : String) : List Consignment :=
  gateway.map (fun c =>
    if c.id == consignmentId then
      { c with selectedShippingOption := some ⟨shippingOptionId⟩ }
    else c)

/-- restoreConsignment (CustomShipping.tsx lines 1247-1294): find an existing
remote consignment containing the cached record line item id; when found, PUT
the cached shipping option id onto it. The oracle restoreFails says whether
that PUT fails (non-2xx or network error); a failed PUT leaves the remote
state unchanged and the thrown error is caught by the caller. When no
consignment contains the line item the function is a silent no-op. The Bool
result says whether an error was thrown. -/
def restoreConsignment (restoreFails : String → Bool) (gateway : List Consignment)
    (storedConsignment : StoredConsignment) :
    List Consignment × List GatewayEvent × Bool :=
  match gateway.find? (fun c => c.lineItemIds.contains storedConsignment.lineItemId) with
  | none => (gateway, [], false)
  | some existingConsignment =>
    if restoreFails existingConsignment.id then
      (gateway,
       [.setShippingOption existingConsignment.id
          storedConsignment.selectedShippingOptionId],
       true)
    else
      (applySetShippingOption gateway existingConsignment.id
          storedConsignment.selectedShippingOptionId,
       [.setShippingOption existingConsignment.id
          storedConsignment.selectedShippingOptionId],
       false)

/-- One iteration of the restore loop of initConsignments
(CustomShipping.tsx lines 186-217): for a physical item whose single-item
consignment in the initial snapshot lacks a shipping option, look the cache up
by (id, quantity) and, when a record with a non-empty selectedShippingOptionId
exists, attempt restoreConsignment against the live remote state; a restore
error is logged and the loop continues. -/
def initRestoreStep (restoreFails : String → Bool) (physicalItems : List LineItem)
    (currentConsignments : List Consignment) (store : List StoredConsignment)
    (acc : List Consignment × List GatewayEvent) (item : LineItem) :
    List Consignment × List GatewayEvent :=
  let itemQuantity := match physicalItems.find? (fun p => p.id == item.id) with
    | some physicalItem => physicalItem.quantity
    | none => 1
  match currentConsignments.find? (fun c =>
      c.lineItemIds.length == 1 && c.lineItemIds.getD 0 "" == item.id) with
  | some existingConsignment =>
    if existingConsignment.selectedShippingOption.isNone then
      match findStoredConsignmentByLineItemId item.id itemQuantity store with
      | some storedConsignment =>
        if storedConsignment.selectedShippingOptionId != "" then
          let result := restoreConsignment restoreFails acc.1 storedConsignment
          (result.1, acc.2 ++ result.2.1)
        else acc
      | none => acc
    else acc
  | none => acc

/-- The whole restore loop, threading the live remote state and accumulating
the Gateway events, starting from the initial consignments snapshot. -/
def initRestorePhase (restoreFails : String → Bool) (physicalItems : List LineItem)
    (currentConsignments : List Consignment) (store : List StoredConsignment) :
    List Consignment × List GatewayEvent :=
  physicalItems.foldl
    (initRestoreStep restoreFails physicalItems currentConsignments store)
    (currentConsignments, [])

/-- Result of the initialization pass: the refetched remote snapshot taken
after the restore loop, the final remote state, the final session cache, and
the Gateway mutations issued. -/
structure InitOutcome where
  refetched : List Consignment
  gateway : List Consignment
  store : List StoredConsignment
  events : List GatewayEvent
deriving Repr

/-- Deletion loop of initConsignments (lines 239-254): each consignment still
lacking a shipping option in the refetched snapshot is deleted sequentially
via the Gateway, and, when its id is truthy, its cache entry is removed. -/
def initDeleteStep (acc : List Consignment × List StoredConsignment × List GatewayEvent)
    (consignment : Consignment) :
    List Consignment × List StoredConsignment × List GatewayEvent :=
  let gateway := acc.1.filter (fun c => c.id != consignment.id)
  let store := if consignment.id != "" then
      removeStoredConsignment consignment.id acc.2.1
    else acc.2.1
  (gateway, store, acc.2.2 ++ [.deleteConsignment consignment.id])

/-- initConsignments (CustomShipping.tsx lines 171-418), remote and cache
effects. After the restore loop the checkout is refetched; every consignment
still lacking a selected shipping option is deleted and its cache entry
purged. When none is incomplete, a refetched snapshot holding a multi-item
consignment triggers the SDK deleteConsignments call (when that prop is
provided), which removes every remote consignment; otherwise the remote
state is left as refetched. -/
def initConsignments (restoreFails : String → Bool) (hasDeleteConsignments : Bool)
    (physicalItems : List LineItem) (consignmentsProp : List Consignment)
    (store : List StoredConsignment) : InitOutcome :=
  let phase1 := initRestorePhase restoreFails physicalItems consignmentsProp store
  let refetched := phase1.1
  let events1 := phase1.2
  let consignmentsToRemove := refetched.filter
    (fun c => c.selectedShippingOption.isNone)
  if consignmentsToRemove.length > 0 then
    let deleted := consignmentsToRemove.foldl initDeleteStep (refetched, store, [])
    { refetched, gateway := deleted.1, store := deleted.2.1,
      events := events1 ++ deleted.2.2 }
  else
    let consignmentsToSplit := refetched.filter
      (fun c => c.lineItemIds.length > 1)
    if consignmentsToSplit.length > 0 && hasDeleteConsignments then
      { refetched, gateway := [], store,
        events := events1 ++ [.deleteAllConsignments] }
    else
      { refetched, gateway := refetched, store, events := events1 }

/-- Evolution invariant of the restore loop: an original consignment keeps a
counterpart with the same id and line items whose shipping option is either
unchanged or has been set. -/
def evolvesFrom (c' c : Consignment) : Prop :=
  c'.id = c.id ∧ c'.lineItemIds = c.lineItemIds ∧
    (c'.selectedShippingOption = c.selectedShippingOption ∨
      c'.selectedShippingOption.isSome)

/-- Setting a shipping option preserves the evolution invariant. -/
theorem applySetShippingOption_evolves (gateway : List Consignment)
    (consignmentId shippingOptionId : String) (c : Consignment)
    (h : ∃ c' ∈ gateway, evolvesFrom c' c) :
    ∃ c' ∈ applySetShippingOption gateway consignmentId shippingOptionId,
      evolvesFrom c' c := by
  obtain ⟨c', hmem, hid, hitems, hopt⟩ := h
  by_cases hc : c'.id == consignmentId
  · refine ⟨{ c' with selectedShippingOption := some ⟨shippingOptionId⟩ }, ?_, ?_⟩
    · unfold applySetShippingOption
      exact List.mem_map.mpr ⟨c', hmem, by simp [hc]⟩
    · exact ⟨hid, hitems, Or.inr rfl⟩
  · refine ⟨c', ?_, hid, hitems, hopt⟩
    unfold applySetShippingOption
    exact List.mem_map.mpr ⟨c', hmem, by simp [hc]⟩

/-- A restore step leaves the live remote state unchanged or applies one
shipping-option PUT to it. -/
theorem initRestoreStep_gateway_cases (restoreFails : String → Bool)
    (physicalItems : List LineItem) (currentConsignments : List Consignment)
    (store : List StoredConsignment) (acc : List Consignment × List GatewayEvent)
    (item : LineItem) :
    (initRestoreStep restoreFails physicalItems currentConsignments store acc
        item).1 = acc.1 ∨
    ∃ consignmentId shippingOptionId,
      (initRestoreStep restoreFails physicalItems currentConsignments store acc
          item).1 =
        applySetShippingOption acc.1 consignmentId shippingOptionId := by
  unfold initRestoreStep
  cases hfind : currentConsignments.find? (fun c =>
      c.lineItemIds.length == 1 && c.lineItemIds.getD 0 "" == item.id) with
  | none => exact Or.inl rfl
  | some existingConsignment =>
    by_cases hopt : existingConsignment.selectedShippingOption.isNone
    · simp only [hopt, if_pos]
      cases hstore : findStoredConsignmentByLineItemId item.id
          (match physicalItems.find? (fun p => p.id == item.id) with
            | some physicalItem => physicalItem.quantity
            | none => 1) store with
      | none => exact Or.inl rfl
      | some storedConsignment =>
        by_cases hne : storedConsignment.selectedShippingOptionId != ""
        · simp only [hne, if_pos]
          unfold restoreConsignment
          cases hfind2 : acc.1.find? (fun c =>
              c.lineItemIds.contains storedConsignment.lineItemId) with
          | none => exact Or.inl rfl
          | some existing2 =>
            by_cases hfail : restoreFails existing2.id
            · simp only [hfail, if_pos]
              exact Or.inl (by simp)
            · simp only [hfail, if_neg, Bool.false_eq_true, not_false_iff]
              exact Or.inr ⟨existing2.id,
                storedConsignment.selectedShippingOptionId, rfl⟩
        · simp only [hne, if_neg, Bool.false_eq_true, not_false_iff]
          exact Or.inl (by simp)
    · simp only [hopt, if_neg, Bool.false_eq_true, not_false_iff]
      exact Or.inl (by simp)

/-- The restore fold preserves the evolution invariant. -/
theorem foldl_restore_evolves (restoreFails : String → Bool)
    (physicalItems : List LineItem) (currentConsignments : List Consignment)
    (store : List StoredConsignment) (todo : List LineItem)
    (acc : List Consignment × List GatewayEvent) (c : Consignment)
    (h : ∃ c' ∈ acc.1, evolvesFrom c' c) :
    ∃ c' ∈ (todo.foldl
        (initRestoreStep restoreFails physicalItems currentConsignments store)
        acc).1, evolvesFrom c' c := by
  induction todo generalizing acc with
  | nil => exact h
  | cons item rest ih =>
    rw [List.foldl_cons]
    apply ih
    rcases initRestoreStep_gateway_cases restoreFails physicalItems
        currentConsignments store acc item with hcase | ⟨cid, optId, hcase⟩
    · rw [hcase]; exact h
    · rw [hcase]
      exact applySetShippingOption_evolves acc.1 cid optId c h

/-- Every original consignment has an evolved counterpart in the refetched
snapshot after the restore loop. -/
theorem initRestorePhase_evolves (restoreFails : String → Bool)
    (physicalItems : List LineItem) (currentConsignments : List Consignment)
    (store : List StoredConsignment) (c : Consignment)
    (hc : c ∈ currentConsignments) :
    ∃ c' ∈ (initRestorePhase restoreFails physicalItems currentConsignments
        store).1, evolvesFrom c' c :=
  foldl_restore_evolves restoreFails physicalItems currentConsignments store
    physicalItems (currentConsignments, []) c
    ⟨c, hc, rfl, rfl, Or.inl rfl⟩

/-- Membership in the remote state left by the deletion fold: a consignment
survives exactly when it was present and its id differs from every deleted
consignment id. -/
theorem initDeleteStep_foldl_mem (toRemove : List Consignment)
    (acc : List Consignment × List StoredConsignment × List GatewayEvent)
    (x : Consignment) :
    x ∈ (toRemove.foldl initDeleteStep acc).1 ↔
      x ∈ acc.1 ∧ ∀ r ∈ toRemove, x.id ≠ r.id := by
  induction toRemove generalizing acc with
  | nil => simp
  | cons r rest ih =>
    rw [List.foldl_cons, ih]
    constructor
    · rintro ⟨hx, hall⟩
      simp only [initDeleteStep, List.mem_filter] at hx
      refine ⟨hx.1, ?_⟩
      intro d hd
      rcases List.mem_cons.mp hd with hd | hd
      · subst hd
        have := hx.2
        simpa using this
      · exact hall d hd
    · rintro ⟨hx, hall⟩
      refine ⟨?_, fun d hd => hall d (List.mem_cons_of_mem _ hd)⟩
      simp only [initDeleteStep, List.mem_filter]
      refine ⟨hx, ?_⟩
      have := hall r (List.mem_cons_self _ _)
      simpa using this

/-- Records surviving the deletion fold were present before and carry none of
the purged consignment ids. -/
theorem initDeleteStep_foldl_store (toRemove : List Consignment)
    (acc : List Consignment × List StoredConsignment × List GatewayEvent)
    (record : StoredConsignment)
    (hr : record ∈ (toRemove.foldl initDeleteStep acc).2.1) :
    record ∈ acc.2.1 ∧
      ∀ c ∈ toRemove, c.id ≠ "" → record.consignmentId ≠ c.id := by
  induction toRemove generalizing acc with
  | nil =>
    refine ⟨hr, ?_⟩
    intro c hc
    exact absurd hc (List.not_mem_nil c)
  | cons r rest ih =>
    rw [List.foldl_cons] at hr
    obtain ⟨hmem, hrest⟩ := ih _ hr
    by_cases hid : r.id != ""
    · have hmem' : record ∈ removeStoredConsignment r.id acc.2.1 := by
        simpa [initDeleteStep, hid] using hmem
      unfold removeStoredConsignment at hmem'
      have := List.mem_filter.mp hmem'
      refine ⟨this.1, ?_⟩
      intro c hc hcne
      rcases List.mem_cons.mp hc with hceq | hcmem
      · subst hceq
        have := this.2
        simpa using this
      · exact hrest c hcmem hcne
    · have hmem' : record ∈ acc.2.1 := by
        simpa [initDeleteStep, hid] using hmem
      refine ⟨hmem', ?_⟩
      intro c hc hcne
      rcases List.mem_cons.mp hc with hceq | hcmem
      · subst hceq
        simp only [bne_iff_ne, ne_eq, not_not] at hid
        exact absurd hid hcne
      · exact hrest c hcmem hcne

/-- Events recorded by the deletion fold: one DELETE per removed consignment,
in order, appended to the events already recorded. -/
theorem initDeleteStep_foldl_events (toRemove : List Consignment)
    (acc : List Consignment × List StoredConsignment × List GatewayEvent) :
    (toRemove.foldl initDeleteStep acc).2.2 =
      acc.2.2 ++ toRemove.map (fun c => .deleteConsignment c.id) := by
  induction toRemove generalizing acc with
  | nil => simp
  | cons r rest ih =>
    rw [List.foldl_cons, ih]
    simp [initDeleteStep]

/-- C1: no consignment whose selectedShippingOption is null survives past the
end of the initialization pass; every initially incomplete consignment is
either complete in the refetched snapshot (its cached option replayed) or is
deleted via the Gateway with its cache entry removed. Gateway-assigned
consignment ids are non-empty strings. -/
theorem reconciliation_no_incomplete_survives (restoreFails : String → Bool)
    (hasDeleteConsignments : Bool) (physicalItems : List LineItem)
    (consignmentsProp : List Consignment) (store : List StoredConsignment)
    (hids : ∀ c ∈ consignmentsProp, c.id ≠ "") :
    (∀ c ∈ (initConsignments restoreFails hasDeleteConsignments physicalItems
        consignmentsProp store).gateway, c.selectedShippingOption.isSome) ∧
    (∀ c ∈ consignmentsProp, c.selectedShippingOption = none →
      (∃ c' ∈ (initConsignments restoreFails hasDeleteConsignments physicalItems
          consignmentsProp store).refetched,
        c'.id = c.id ∧ c'.selectedShippingOption.isSome) ∨
      ((∀ c' ∈ (initConsignments restoreFails hasDeleteConsignments physicalItems
           consignmentsProp store).gateway, c'.id ≠ c.id) ∧
       GatewayEvent.deleteConsignment c.id ∈ (initConsignments restoreFails
         hasDeleteConsignments physicalItems consignmentsProp store).events ∧
       ∀ r ∈ (initConsignments restoreFails hasDeleteConsignments physicalItems
           consignmentsProp store).store, r.consignmentId ≠ c.id)) := by
  set phase1 := initRestorePhase restoreFails physicalItems consignmentsProp store
    with hphase1
  set refetched := phase1.1 with hrefetched
  set toRemove := refetched.filter (fun c => c.selectedShippingOption.isNone)
    with htoRemove
  have hout : initConsignments restoreFails hasDeleteConsignments physicalItems
      consignmentsProp store =
      (if toRemove.length > 0 then
        { refetched,
          gateway := (toRemove.foldl initDeleteStep (refetched, store, [])).1,
          store := (toRemove.foldl initDeleteStep (refetched, store, [])).2.1,
          events := phase1.2 ++ (toRemove.foldl initDeleteStep
            (refetched, store, [])).2.2 }
      else if (refetched.filter (fun c => c.lineItemIds.length > 1)).length > 0 &&
          hasDeleteConsignments then
        { refetched, gateway := [], store,
          events := phase1.2 ++ [.deleteAllConsignments] }
      else { refetched, gateway := refetched, store, events := phase1.2 }) := rfl
  constructor
  · intro c hc
    by_cases hrem : toRemove.length > 0
    · rw [hout, if_pos hrem] at hc
      simp only at hc
      have hmem := (initDeleteStep_foldl_mem toRemove (refetched, store, []) c).mp hc
      by_cases hnone : c.selectedShippingOption.isNone
      · exfalso
        have hcrem : c ∈ toRemove :=
          List.mem_filter.mpr ⟨hmem.1, by simpa using hnone⟩
        exact hmem.2 c hcrem rfl
      · have hne : c.selectedShippingOption ≠ none := by simpa using hnone
        exact Option.ne_none_iff_isSome.mp hne
    · have hempty : toRemove = [] := by
        cases htr : toRemove with
        | nil => rfl
        | cons a l => rw [htr] at hrem; simp at hrem
      have hall : ∀ d ∈ refetched, ¬d.selectedShippingOption.isNone := by
        intro d hd hdn
        have : d ∈ toRemove := List.mem_filter.mpr ⟨hd, by simpa using hdn⟩
        rw [hempty] at this
        exact absurd this (List.not_mem_nil d)
      rw [hout, if_neg hrem] at hc
      by_cases hsplit : (refetched.filter
          (fun c => c.lineItemIds.length > 1)).length > 0 && hasDeleteConsignments
      · rw [if_pos hsplit] at hc
        simp only at hc
        exact absurd hc (List.not_mem_nil c)
      · rw [if_neg hsplit] at hc
        simp only at hc
        have hne : c.selectedShippingOption ≠ none := by simpa using hall c hc
        exact Option.ne_none_iff_isSome.mp hne
  · intro c hc hcnone
    obtain ⟨c', hc'mem, hc'id, hc'items, hc'opt⟩ :=
      initRestorePhase_evolves restoreFails physicalItems consignmentsProp store c hc
    rcases hc'opt with hc'opt | hc'opt
    · right
      have hc'none : c'.selectedShippingOption.isNone := by
        rw [hc'opt, hcnone]; rfl
      have hc'rem : c' ∈ toRemove :=
        List.mem_filter.mpr ⟨hc'mem, by simpa using hc'none⟩
      have hrem : toRemove.length > 0 := by
        cases htr : toRemove with
        | nil => rw [htr] at hc'rem; exact absurd hc'rem (List.not_mem_nil c')
        | cons a l => simp
      refine ⟨?_, ?_, ?_⟩
      · intro x hx
        rw [hout, if_pos hrem] at hx
        simp only at hx
        have hmem := (initDeleteStep_foldl_mem toRemove (refetched, store, []) x).mp hx
        have := hmem.2 c' hc'rem
        rw [hc'id] at this
        exact this
      · rw [hout, if_pos hrem]
        simp only
        rw [initDeleteStep_foldl_events]
        refine List.mem_append.mpr (Or.inr ?_)
        refine List.mem_append.mpr (Or.inr ?_)
        exact List.mem_map.mpr ⟨c', hc'rem, by rw [hc'id]⟩
      · intro r hr
        rw [hout, if_pos hrem] at hr
        simp only at hr
        have hstore := initDeleteStep_foldl_store toRemove (refetched, store, []) r hr
        have hidne : c'.id ≠ "" := by rw [hc'id]; exact hids c hc
        have := hstore.2 c' hc'rem hidne
        rw [hc'id] at this
        exact this
    · left
      have hrefeq : (initConsignments restoreFails hasDeleteConsignments
          physicalItems consignmentsProp store).refetched = refetched := by
        rw [hout]
        by_cases hrem : toRemove.length > 0
        · rw [if_pos hrem]
        · rw [if_neg hrem]
          by_cases hsplit : (refetched.filter
              (fun c => c.lineItemIds.length > 1)).length > 0 && hasDeleteConsignments
          · rw [if_pos hsplit]
          · rw [if_neg hsplit]
      rw [hrefeq]
      exact ⟨c', hc'mem, hc'id, hc'opt⟩

/-- Witness for C1 at a concrete pass: one item, one incomplete remote
consignment, one matching cache record. -/
theorem reconciliation_no_incomplete_survives_witness :
    (∀ c ∈ ([⟨"c1", ["A"], some "addr", none, [⟨"opt-9"⟩]⟩] :
        List Consignment), c.id ≠ "") ∧
    ((∀ c ∈ (initConsignments (fun _ => false) false [⟨"A", "item", 1⟩]
        [⟨"c1", ["A"], some "addr", none, [⟨"opt-9"⟩]⟩]
        [⟨"c1", "A", 1, some "addr", "opt-9", none⟩]).gateway,
        c.selectedShippingOption.isSome) ∧
    (∀ c ∈ ([⟨"c1", ["A"], some "addr", none, [⟨"opt-9"⟩]⟩] :
        List Consignment), c.selectedShippingOption = none →
      (∃ c' ∈ (initConsignments (fun _ => false) false [⟨"A", "item", 1⟩]
          [⟨"c1", ["A"], some "addr", none, [⟨"opt-9"⟩]⟩]
          [⟨"c1", "A", 1, some "addr", "opt-9", none⟩]).refetched,
        c'.id = c.id ∧ c'.selectedShippingOption.isSome) ∨
      ((∀ c' ∈ (initConsignments (fun _ => false) false [⟨"A", "item", 1⟩]
           [⟨"c1", ["A"], some "addr", none, [⟨"opt-9"⟩]⟩]
           [⟨"c1", "A", 1, some "addr", "opt-9", none⟩]).gateway, c'.id ≠ c.id) ∧
       GatewayEvent.deleteConsignment c.id ∈ (initConsignments (fun _ => false)
         false [⟨"A", "item", 1⟩] [⟨"c1", ["A"], some "addr", none, [⟨"opt-9"⟩]⟩]
         [⟨"c1", "A", 1, some "addr", "opt-9", none⟩]).events ∧
       ∀ r ∈ (initConsignments (fun _ => false) false [⟨"A", "item", 1⟩]
           [⟨"c1", ["A"], some "addr", none, [⟨"opt-9"⟩]⟩]
           [⟨"c1", "A", 1, some "addr", "opt-9", none⟩]).store,
         r.consignmentId ≠ c.id))) :=
  ⟨by decide,
   reconciliation_no_incomplete_survives (fun _ => false) false [⟨"A", "item", 1⟩]
     [⟨"c1", ["A"], some "addr", none, [⟨"opt-9"⟩]⟩]
     [⟨"c1", "A", 1, some "addr", "opt-9", none⟩] (by decide)⟩

/-- Identity-and-coverage skeleton of a remote consignment: the restore loop
can change selected shipping options but never ids or covered line items. -/
def skeleton (c : Consignment) : String × List String :=
  (c.id, c.lineItemIds)

/-- Number of shipping-option PUTs targeting a given consignment id. -/
def countSetShippingOptionFor (events : List GatewayEvent)
    (consignmentId : String) : Nat :=
  events.countP (fun e => match e with
    | .setShippingOption k _ => k == consignmentId
    | _ => false)

/-- Static description of the Gateway events the restore loop emits for one
physical item; proven below to coincide with the events of the dynamic loop,
for every failure oracle. -/
def restoreEventsForItem (physicalItems : List LineItem)
    (currentConsignments : List Consignment) (store : List StoredConsignment)
    (item : LineItem) : List GatewayEvent :=
  let itemQuantity := match physicalItems.find? (fun p => p.id == item.id) with
    | some physicalItem => physicalItem.quantity
    | none => 1
  match currentConsignments.find? (fun c =>
      c.lineItemIds.length == 1 && c.lineItemIds.getD 0 "" == item.id) with
  | some existingConsignment =>
    if existingConsignment.selectedShippingOption.isNone then
      match findStoredConsignmentByLineItemId item.id itemQuantity store with
      | some storedConsignment =>
        if storedConsignment.selectedShippingOptionId != "" then
          match currentConsignments.find? (fun c =>
              c.lineItemIds.contains storedConsignment.lineItemId) with
          | some target =>
            [.setShippingOption target.id storedConsignment.selectedShippingOptionId]
          | none => []
        else []
      | none => []
    else []
  | none => []

/-- Setting a shipping option does not change remote skeletons. -/
theorem applySetShippingOption_skeleton (gateway : List Consignment)
    (consignmentId shippingOptionId : String) :
    (applySetShippingOption gateway consignmentId shippingOptionId).map skeleton =
      gateway.map skeleton := by
  unfold applySetShippingOption
  rw [List.map_map]
  apply List.map_congr_left
  intro c _
  simp only [Function.comp_apply]
  unfold skeleton
  split <;> rfl

/-- Search by line-item containment is determined by the skeleton list. -/
theorem find_contains_skeleton (gw cp : List Consignment) (a : String)
    (h : gw.map skeleton = cp.map skeleton) :
    Option.map skeleton (gw.find? (fun c => c.lineItemIds.contains a)) =
      Option.map skeleton (cp.find? (fun c => c.lineItemIds.contains a)) := by
  induction gw generalizing cp with
  | nil =>
    cases cp with
    | nil => rfl
    | cons y ys => simp at h
  | cons x xs ih =>
    cases cp with
    | nil => simp at h
    | cons y ys =>
      simp only [List.map_cons, List.cons.injEq] at h
      have hitems : x.lineItemIds = y.lineItemIds := congrArg Prod.snd h.1
      by_cases hp : y.lineItemIds.contains a
      · rw [List.find?_cons_of_pos, List.find?_cons_of_pos]
        · simp [h.1]
        · exact hp
        · rw [hitems]; exact hp
      · rw [List.find?_cons_of_neg, List.find?_cons_of_neg]
        · exact ih ys h.2
        · exact hp
        · rw [hitems]; exact hp

/-- In a list whose mapped keys are pairwise distinct, the first element with
the key of a member is that member. -/
theorem find_first_of_nodup_map (items : List LineItem) (item : LineItem)
    (hnd : (items.map (fun i => i.id)).Nodup) (hmem : item ∈ items) :
    items.find? (fun p => p.id == item.id) = some item := by
  induction items with
  | nil => exact absurd hmem (List.not_mem_nil item)
  | cons x xs ih =>
    simp only [List.map_cons, List.nodup_cons] at hnd
    rcases List.mem_cons.mp hmem with hx | hx
    · subst hx
      rw [List.find?_cons_of_pos]
      simp
    · rw [List.find?_cons_of_neg]
      · exact ih hnd.2 hx
      · simp only [beq_iff_eq]
        intro hxe
        exact hnd.1 (List.mem_map.mpr ⟨item, hx, hxe.symm⟩)

/-- With pairwise-disjoint line-item coverage, the first consignment
containing a covered line item is the consignment covering it. -/
theorem find_contains_of_pairwise (cp : List Consignment) (c : Consignment)
    (a : String)
    (hdisj : cp.Pairwise (fun x y => ∀ s ∈ x.lineItemIds, s ∉ y.lineItemIds))
    (hc : c ∈ cp) (ha : a ∈ c.lineItemIds) :
    cp.find? (fun d => d.lineItemIds.contains a) = some c := by
  induction cp with
  | nil => exact absurd hc (List.not_mem_nil c)
  | cons x xs ih =>
    rw [List.pairwise_cons] at hdisj
    rcases List.mem_cons.mp hc with hx | hx
    · subst hx
      rw [List.find?_cons_of_pos]
      simpa using ha
    · rw [List.find?_cons_of_neg]
      · exact ih hdisj.2 hx
      · have hnotin : a ∉ x.lineItemIds := fun hax => hdisj.1 c hx a hax ha
        simpa using hnotin

/-- With pairwise-disjoint coverage, the first single-item consignment
covering exactly a given id is the consignment whose coverage is that id. -/
theorem find_single_of_pairwise (cp : List Consignment) (c : Consignment)
    (a : String)
    (hdisj : cp.Pairwise (fun x y => ∀ s ∈ x.lineItemIds, s ∉ y.lineItemIds))
    (hc : c ∈ cp) (heq : c.lineItemIds = [a]) :
    cp.find? (fun d => d.lineItemIds.length == 1 && d.lineItemIds.getD 0 "" == a) =
      some c := by
  induction cp with
  | nil => exact absurd hc (List.not_mem_nil c)
  | cons x xs ih =>
    rw [List.pairwise_cons] at hdisj
    rcases List.mem_cons.mp hc with hx | hx
    · subst hx
      rw [List.find?_cons_of_pos]
      rw [heq]
      simp
    · rw [List.find?_cons_of_neg]
      · exact ih hdisj.2 hx
      · simp only [Bool.and_eq_true, beq_iff_eq, not_and]
        intro hlen hget
        have hxeq : x.lineItemIds = [a] := by
          cases hxi : x.lineItemIds with
          | nil => rw [hxi] at hlen; simp at hlen
          | cons b bs =>
            rw [hxi] at hlen hget
            cases bs with
            | nil =>
              simp only [List.getD, List.get?, List.length_cons,
                List.length_nil] at hget ⊢
              have : b = a := by simpa using hget
              rw [this]
            | cons b2 bs2 => rw [List.length_cons, List.length_cons] at hlen; omega
        have : a ∈ x.lineItemIds := by rw [hxeq]; exact List.mem_singleton.mpr rfl
        exact absurd (heq ▸ List.mem_singleton.mpr rfl)
          (fun hac => hdisj.1 c hx a this hac)

/-- One restore step appends exactly the statically described events and
preserves the remote skeletons, for every failure oracle. -/
theorem initRestoreStep_spec (restoreFails : String → Bool)
    (physicalItems : List LineItem) (currentConsignments : List Consignment)
    (store : List StoredConsignment) (gw : List Consignment)
    (evs : List GatewayEvent) (item : LineItem)
    (hsk : gw.map skeleton = currentConsignments.map skeleton) :
    (initRestoreStep restoreFails physicalItems currentConsignments store
        (gw, evs) item).2 =
      evs ++ restoreEventsForItem physicalItems currentConsignments store item ∧
    (initRestoreStep restoreFails physicalItems currentConsignments store
        (gw, evs) item).1.map skeleton = currentConsignments.map skeleton := by
  unfold initRestoreStep restoreEventsForItem
  cases hfind : currentConsignments.find? (fun c =>
      c.lineItemIds.length == 1 && c.lineItemIds.getD 0 "" == item.id) with
  | none => exact ⟨by simp, hsk⟩
  | some existingConsignment =>
    by_cases hopt : existingConsignment.selectedShippingOption.isNone
    · simp only [hopt, if_pos]
      cases hstore : findStoredConsignmentByLineItemId item.id
          (match physicalItems.find? (fun p => p.id == item.id) with
            | some physicalItem => physicalItem.quantity
            | none => 1) store with
      | none => exact ⟨by simp, hsk⟩
      | some storedConsignment =>
        by_cases hne : storedConsignment.selectedShippingOptionId != ""
        · simp only [hne, if_pos]
          unfold restoreConsignment
          have htrans := find_contains_skeleton gw currentConsignments
            storedConsignment.lineItemId hsk
          cases hfind2 : gw.find? (fun c =>
              c.lineItemIds.contains storedConsignment.lineItemId) with
          | none =>
            rw [hfind2] at htrans
            cases hfind3 : currentConsignments.find? (fun c =>
                c.lineItemIds.contains storedConsignment.lineItemId) with
            | none => exact ⟨by simp, hsk⟩
            | some target => rw [hfind3] at htrans; simp at htrans
          | some existing2 =>
            rw [hfind2] at htrans
            cases hfind3 : currentConsignments.find? (fun c =>
                c.lineItemIds.contains storedConsignment.lineItemId) with
            | none => rw [hfind3] at htrans; simp at htrans
            | some target =>
              rw [hfind3] at htrans
              have hid : existing2.id = target.id := by
                have h2 : skeleton existing2 = skeleton target := by
                  simpa using htrans
                exact congrArg Prod.fst h2
              by_cases hfail : restoreFails existing2.id
              · simp only [hfail, if_pos]
                exact ⟨by rw [hid], hsk⟩
              · simp only [hfail, if_neg, Bool.false_eq_true, not_false_iff]
                constructor
                · rw [hid]
                · rw [applySetShippingOption_skeleton]
                  exact hsk
        · simp only [hne, if_neg, Bool.false_eq_true, not_false_iff]
          exact ⟨by simp, hsk⟩
    · simp only [hopt, if_neg, Bool.false_eq_true, not_false_iff]
      exact ⟨by simp, hsk⟩

/-- The whole restore fold: the events are exactly the concatenation of the
static per-item event lists, and the remote skeletons are preserved. -/
theorem restore_foldl_spec (restoreFails : String → Bool)
    (physicalItems : List LineItem) (currentConsignments : List Consignment)
    (store : List StoredConsignment) (todo : List LineItem)
    (gw : List Consignment) (evs : List GatewayEvent)
    (hsk : gw.map skeleton = currentConsignments.map skeleton) :
    (todo.foldl (initRestoreStep restoreFails physicalItems currentConsignments
        store) (gw, evs)).2 =
      evs ++ todo.flatMap
        (restoreEventsForItem physicalItems currentConsignments store) ∧
    (todo.foldl (initRestoreStep restoreFails physicalItems currentConsignments
        store) (gw, evs)).1.map skeleton = currentConsignments.map skeleton := by
  induction todo generalizing gw evs with
  | nil => exact ⟨by simp, hsk⟩
  | cons item rest ih =>
    rw [List.foldl_cons]
    have hstep := initRestoreStep_spec restoreFails physicalItems
      currentConsignments store gw evs item hsk
    have hpair : initRestoreStep restoreFails physicalItems currentConsignments
        store (gw, evs) item =
        ((initRestoreStep restoreFails physicalItems currentConsignments store
          (gw, evs) item).1,
         evs ++ restoreEventsForItem physicalItems currentConsignments store item) := by
      rw [← hstep.1]
    rw [hpair]
    have := ih (initRestoreStep restoreFails physicalItems currentConsignments
      store (gw, evs) item).1
      (evs ++ restoreEventsForItem physicalItems currentConsignments store item)
      hstep.2
    refine ⟨?_, this.2⟩
    rw [this.1, List.flatMap_cons, List.append_assoc]

/-- The events of the restore phase, described statically: one PUT per item
whose single-item consignment in the initial snapshot is incomplete and whose
cache record carries a non-empty option id, targeting the first consignment
covering the cached line item; this holds for every failure oracle. -/
theorem initRestorePhase_events_eq (restoreFails : String → Bool)
    (physicalItems : List LineItem) (currentConsignments : List Consignment)
    (store : List StoredConsignment) :
    (initRestorePhase restoreFails physicalItems currentConsignments store).2 =
      physicalItems.flatMap
        (restoreEventsForItem physicalItems currentConsignments store) := by
  have := restore_foldl_spec restoreFails physicalItems currentConsignments
    store physicalItems currentConsignments [] rfl
  simpa [initRestorePhase] using this.1

/-- The restore phase preserves remote skeletons. -/
theorem initRestorePhase_skeleton (restoreFails : String → Bool)
    (physicalItems : List LineItem) (currentConsignments : List Consignment)
    (store : List StoredConsignment) :
    (initRestorePhase restoreFails physicalItems currentConsignments
        store).1.map skeleton = currentConsignments.map skeleton := by
  have := restore_foldl_spec restoreFails physicalItems currentConsignments
    store physicalItems currentConsignments [] rfl
  exact this.2

/-- A matching cache record found by (lineItemId, quantity) carries exactly
that line item id and quantity. -/
theorem findStoredConsignmentByLineItemId_props (lineItemId : String)
    (quantity : Nat) (store : List StoredConsignment) (r : StoredConsignment)
    (hr : findStoredConsignmentByLineItemId lineItemId quantity store = some r) :
    r.lineItemId = lineItemId ∧ r.quantity = quantity := by
  unfold findStoredConsignmentByLineItemId at hr
  have := List.find?_some hr
  simp only [Bool.and_eq_true, beq_iff_eq] at this
  exact this

/-- Static restore events for the item whose incomplete single-item
consignment has a cached shipping option: exactly one PUT of the cached
option onto that consignment. -/
theorem restoreEventsForItem_target (physicalItems : List LineItem)
    (cp : List Consignment) (store : List StoredConsignment)
    (C : LineItem) (c : Consignment) (r : StoredConsignment)
    (hitems_nd : (physicalItems.map (fun i => i.id)).Nodup)
    (hCmem : C ∈ physicalItems)
    (hdisj : cp.Pairwise (fun x y => ∀ s ∈ x.lineItemIds, s ∉ y.lineItemIds))
    (hc : c ∈ cp) (hcitems : c.lineItemIds = [C.id])
    (hcnone : c.selectedShippingOption = none)
    (hr : findStoredConsignmentByLineItemId C.id C.quantity store = some r)
    (hropt : r.selectedShippingOptionId ≠ "") :
    restoreEventsForItem physicalItems cp store C =
      [.setShippingOption c.id r.selectedShippingOptionId] := by
  have hfq : physicalItems.find? (fun p => p.id == C.id) = some C :=
    find_first_of_nodup_map physicalItems C hitems_nd hCmem
  have hfs : cp.find? (fun d =>
      d.lineItemIds.length == 1 && d.lineItemIds.getD 0 "" == C.id) = some c :=
    find_single_of_pairwise cp c C.id hdisj hc hcitems
  have hrlid : r.lineItemId = C.id :=
    (findStoredConsignmentByLineItemId_props C.id C.quantity store r hr).1
  have hfc : cp.find? (fun d => d.lineItemIds.contains r.lineItemId) = some c := by
    rw [hrlid]
    exact find_contains_of_pairwise cp c C.id hdisj hc
      (by rw [hcitems]; exact List.mem_singleton.mpr rfl)
  unfold restoreEventsForItem
  rw [hfq, hfs]
  simp only [hcnone, Option.isNone_none, if_pos]
  rw [hr]
  simp only [bne_iff_ne, ne_eq, hropt, not_false_iff, if_pos]
  rw [hfc]

/-- Static restore events for any other item never target the consignment
covering a different line item id. -/
theorem restoreEventsForItem_other (physicalItems : List LineItem)
    (cp : List Consignment) (store : List StoredConsignment)
    (e : LineItem) (c : Consignment) (targetId : String)
    (hcp_ids : (cp.map (fun d => d.id)).Nodup)
    (hc : c ∈ cp) (hcitems : c.lineItemIds = [targetId])
    (hne : e.id ≠ targetId) :
    countSetShippingOptionFor (restoreEventsForItem physicalItems cp store e)
      c.id = 0 := by
  unfold restoreEventsForItem
  cases hf : cp.find? (fun d =>
      d.lineItemIds.length == 1 && d.lineItemIds.getD 0 "" == e.id) with
  | none => simp [countSetShippingOptionFor]
  | some ec =>
    by_cases hopt : ec.selectedShippingOption.isNone
    · simp only [hopt, if_pos]
      cases hstore : findStoredConsignmentByLineItemId e.id
          (match physicalItems.find? (fun p => p.id == e.id) with
            | some physicalItem => physicalItem.quantity
            | none => 1) store with
      | none => simp [countSetShippingOptionFor]
      | some sc =>
        have hsclid : sc.lineItemId = e.id :=
          (findStoredConsignmentByLineItemId_props e.id _ store sc hstore).1
        by_cases hne2 : sc.selectedShippingOptionId != ""
        · simp only [hne2, if_pos]
          cases hf2 : cp.find? (fun d => d.lineItemIds.contains sc.lineItemId) with
          | none => simp [countSetShippingOptionFor]
          | some tgt =>
            have htmem : tgt ∈ cp := List.mem_of_find?_eq_some hf2
            have htcont : e.id ∈ tgt.lineItemIds := by
              have := List.find?_some hf2
              rw [hsclid] at this
              simpa using this
            have htne : tgt.id ≠ c.id := by
              intro heq
              have htc : tgt = c :=
                List.inj_on_of_nodup_map hcp_ids htmem hc heq
              rw [htc, hcitems] at htcont
              exact hne (List.mem_singleton.mp htcont)
            simp [countSetShippingOptionFor, List.countP_cons, htne]
        · simp only [hne2, if_neg, Bool.false_eq_true, not_false_iff]
          simp [countSetShippingOptionFor]
    · simp only [hopt, if_neg, Bool.false_eq_true, not_false_iff]
      simp [countSetShippingOptionFor]

/-- Counting splits over concatenation. -/
theorem countSetShippingOptionFor_append (a b : List GatewayEvent)
    (cid : String) :
    countSetShippingOptionFor (a ++ b) cid =
      countSetShippingOptionFor a cid + countSetShippingOptionFor b cid := by
  unfold countSetShippingOptionFor
  exact List.countP_append _ _ _

/-- Items whose static events never target the consignment contribute no
matching PUT to the concatenated event list. -/
theorem countSet_flatMap_zero (physicalItems : List LineItem)
    (cp : List Consignment) (store : List StoredConsignment)
    (l : List LineItem) (cid : String)
    (h : ∀ e ∈ l,
      countSetShippingOptionFor (restoreEventsForItem physicalItems cp store e)
        cid = 0) :
    countSetShippingOptionFor
      (l.flatMap (restoreEventsForItem physicalItems cp store)) cid = 0 := by
  induction l with
  | nil => simp [countSetShippingOptionFor]
  | cons e rest ih =>
    rw [List.flatMap_cons, countSetShippingOptionFor_append]
    rw [h e (List.mem_cons_self _ _), ih (fun x hx => h x (List.mem_cons_of_mem _ hx))]

/-- The restore loop emits only shipping-option PUTs. -/
theorem restoreEventsForItem_only_set (physicalItems : List LineItem)
    (cp : List Consignment) (store : List StoredConsignment) (e : LineItem)
    (ev : GatewayEvent) (hev : ev ∈ restoreEventsForItem physicalItems cp store e) :
    ∃ k o, ev = .setShippingOption k o := by
  unfold restoreEventsForItem at hev
  cases hf : cp.find? (fun d =>
      d.lineItemIds.length == 1 && d.lineItemIds.getD 0 "" == e.id) with
  | none =>
    rw [hf] at hev
    exact absurd hev (List.not_mem_nil ev)
  | some ec =>
    rw [hf] at hev
    by_cases hopt : ec.selectedShippingOption.isNone
    · simp only [hopt, if_pos] at hev
      cases hstore : findStoredConsignmentByLineItemId e.id
          (match physicalItems.find? (fun p => p.id == e.id) with
            | some physicalItem => physicalItem.quantity
            | none => 1) store with
      | none =>
        rw [hstore] at hev
        exact absurd hev (List.not_mem_nil ev)
      | some sc =>
        rw [hstore] at hev
        by_cases hne2 : sc.selectedShippingOptionId != ""
        · simp only [hne2, if_pos] at hev
          cases hf2 : cp.find? (fun d => d.lineItemIds.contains sc.lineItemId) with
          | none =>
            rw [hf2] at hev
            exact absurd hev (List.not_mem_nil ev)
          | some tgt =>
            rw [hf2] at hev
            have := List.mem_singleton.mp hev
            exact ⟨tgt.id, sc.selectedShippingOptionId, this⟩
        · simp only [hne2, if_neg, Bool.false_eq_true, not_false_iff] at hev
          exact absurd hev (List.not_mem_nil ev)
    · simp only [hopt, if_neg, Bool.false_eq_true, not_false_iff] at hev
      exact absurd hev (List.not_mem_nil ev)

/-- Once the remote state holds a complete consignment with a given id, a
shipping-option PUT keeps one there. -/
theorem applySetShippingOption_keeps_complete (gw : List Consignment)
    (k o cid : String)
    (h : ∃ x ∈ gw, x.id = cid ∧ x.selectedShippingOption.isSome) :
    ∃ x ∈ applySetShippingOption gw k o,
      x.id = cid ∧ x.selectedShippingOption.isSome := by
  obtain ⟨x, hx, hid, hsome⟩ := h
  by_cases hk : x.id == k
  · refine ⟨{ x with selectedShippingOption := some ⟨o⟩ }, ?_, hid, rfl⟩
    unfold applySetShippingOption
    exact List.mem_map.mpr ⟨x, hx, by simp [hk]⟩
  · refine ⟨x, ?_, hid, hsome⟩
    unfold applySetShippingOption
    exact List.mem_map.mpr ⟨x, hx, by simp [hk]⟩

/-- The rest of the restore loop keeps a complete consignment around. -/
theorem foldl_restore_keeps_complete (restoreFails : String → Bool)
    (physicalItems : List LineItem) (cp : List Consignment)
    (store : List StoredConsignment) (todo : List LineItem)
    (acc : List Consignment × List GatewayEvent) (cid : String)
    (h : ∃ x ∈ acc.1, x.id = cid ∧ x.selectedShippingOption.isSome) :
    ∃ x ∈ (todo.foldl (initRestoreStep restoreFails physicalItems cp store)
        acc).1, x.id = cid ∧ x.selectedShippingOption.isSome := by
  induction todo generalizing acc with
  | nil => exact h
  | cons item rest ih =>
    rw [List.foldl_cons]
    apply ih
    rcases initRestoreStep_gateway_cases restoreFails physicalItems cp store
        acc item with hcase | ⟨k, o, hcase⟩
    · rw [hcase]; exact h
    · rw [hcase]
      exact applySetShippingOption_keeps_complete acc.1 k o cid h

/-- The restore step for the cached item completes its consignment on the
live remote state when the PUT succeeds. -/
theorem initRestoreStep_completes_target (restoreFails : String → Bool)
    (physicalItems : List LineItem) (cp : List Consignment)
    (store : List StoredConsignment) (gw : List Consignment)
    (evs : List GatewayEvent) (C : LineItem) (c : Consignment)
    (r : StoredConsignment)
    (hsk : gw.map skeleton = cp.map skeleton)
    (hitems_nd : (physicalItems.map (fun i => i.id)).Nodup)
    (hCmem : C ∈ physicalItems)
    (hdisj : cp.Pairwise (fun x y => ∀ s ∈ x.lineItemIds, s ∉ y.lineItemIds))
    (hc : c ∈ cp) (hcitems : c.lineItemIds = [C.id])
    (hcnone : c.selectedShippingOption = none)
    (hr : findStoredConsignmentByLineItemId C.id C.quantity store = some r)
    (hropt : r.selectedShippingOptionId ≠ "")
    (hok : restoreFails c.id = false) :
    ∃ x ∈ (initRestoreStep restoreFails physicalItems cp store (gw, evs) C).1,
      x.id = c.id ∧ x.selectedShippingOption.isSome := by
  have hfq : physicalItems.find? (fun p => p.id == C.id) = some C :=
    find_first_of_nodup_map physicalItems C hitems_nd hCmem
  have hfs : cp.find? (fun d =>
      d.lineItemIds.length == 1 && d.lineItemIds.getD 0 "" == C.id) = some c :=
    find_single_of_pairwise cp c C.id hdisj hc hcitems
  have hrlid : r.lineItemId = C.id :=
    (findStoredConsignmentByLineItemId_props C.id C.quantity store r hr).1
  have hfc : cp.find? (fun d => d.lineItemIds.contains r.lineItemId) = some c := by
    rw [hrlid]
    exact find_contains_of_pairwise cp c C.id hdisj hc
      (by rw [hcitems]; exact List.mem_singleton.mpr rfl)
  unfold initRestoreStep
  rw [hfq, hfs]
  simp only [hcnone, Option.isNone_none, if_pos]
  rw [hr]
  simp only [bne_iff_ne, ne_eq, hropt, not_false_iff, if_pos]
  unfold restoreConsignment
  have htrans := find_contains_skeleton gw cp r.lineItemId hsk
  rw [hfc] at htrans
  cases hfind2 : gw.find? (fun d => d.lineItemIds.contains r.lineItemId) with
  | none => rw [hfind2] at htrans; simp at htrans
  | some e =>
    rw [hfind2] at htrans
    have hesk : skeleton e = skeleton c := by simpa using htrans
    have heid : e.id = c.id := congrArg Prod.fst hesk
    dsimp only
    rw [heid, hok]
    simp only [Bool.false_eq_true, if_neg, not_false_iff]
    have hemem : e ∈ gw := List.mem_of_find?_eq_some hfind2
    refine ⟨{ e with selectedShippingOption := some ⟨r.selectedShippingOptionId⟩ },
      ?_, heid, rfl⟩
    unfold applySetShippingOption
    refine List.mem_map.mpr ⟨e, hemem, ?_⟩
    rw [heid]
    simp

/-- Equal skeleton lists give equal id lists. -/
theorem skeleton_map_id (l1 l2 : List Consignment)
    (h : l1.map skeleton = l2.map skeleton) :
    l1.map (fun c => c.id) = l2.map (fun c => c.id) := by
  have := congrArg (List.map Prod.fst) h
  simpa [List.map_map, skeleton, Function.comp] using this

/-- Equal skeleton lists transfer line-item coverage membership. -/
theorem skeleton_mem_lineItemIds (l1 l2 : List Consignment)
    (h : l1.map skeleton = l2.map skeleton) (d : Consignment) (hd : d ∈ l1) :
    ∃ d2 ∈ l2, d2.lineItemIds = d.lineItemIds := by
  have hms : skeleton d ∈ l1.map skeleton := List.mem_map_of_mem _ hd
  rw [h] at hms
  obtain ⟨d2, hd2, hsk⟩ := List.mem_map.mp hms
  exact ⟨d2, hd2, congrArg Prod.snd hsk⟩

/-- After the whole restore phase, the restored target consignment is present
and complete in the refetched snapshot. -/
theorem initRestorePhase_completes_target (restoreFails : String → Bool)
    (physicalItems : List LineItem) (cp : List Consignment)
    (store : List StoredConsignment) (C : LineItem) (c : Consignment)
    (r : StoredConsignment)
    (hitems_nd : (physicalItems.map (fun i => i.id)).Nodup)
    (hCmem : C ∈ physicalItems)
    (hdisj : cp.Pairwise (fun x y => ∀ s ∈ x.lineItemIds, s ∉ y.lineItemIds))
    (hc : c ∈ cp) (hcitems : c.lineItemIds = [C.id])
    (hcnone : c.selectedShippingOption = none)
    (hr : findStoredConsignmentByLineItemId C.id C.quantity store = some r)
    (hropt : r.selectedShippingOptionId ≠ "")
    (hok : restoreFails c.id = false) :
    ∃ x ∈ (initRestorePhase restoreFails physicalItems cp store).1,
      x.id = c.id ∧ x.selectedShippingOption.isSome := by
  obtain ⟨s, t, hst⟩ := List.append_of_mem hCmem
  subst hst
  unfold initRestorePhase
  rw [List.foldl_append, List.foldl_cons]
  apply foldl_restore_keeps_complete
  have hpre := restore_foldl_spec restoreFails (s ++ C :: t) cp store s cp [] rfl
  exact initRestoreStep_completes_target restoreFails (s ++ C :: t) cp store
    (s.foldl (initRestoreStep restoreFails (s ++ C :: t) cp store) (cp, [])).1
    (s.foldl (initRestoreStep restoreFails (s ++ C :: t) cp store) (cp, [])).2
    C c r hpre.2 hitems_nd hCmem hdisj hc hcitems hcnone hr hropt hok

/-- The restore phase issues exactly one shipping-option PUT targeting the
consignment of the cached item. -/
theorem initRestorePhase_count_one (restoreFails : String → Bool)
    (physicalItems : List LineItem) (cp : List Consignment)
    (store : List StoredConsignment) (C : LineItem) (c : Consignment)
    (r : StoredConsignment)
    (hitems_nd : (physicalItems.map (fun i => i.id)).Nodup)
    (hCmem : C ∈ physicalItems)
    (hcp_ids : (cp.map (fun d => d.id)).Nodup)
    (hdisj : cp.Pairwise (fun x y => ∀ s ∈ x.lineItemIds, s ∉ y.lineItemIds))
    (hc : c ∈ cp) (hcitems : c.lineItemIds = [C.id])
    (hcnone : c.selectedShippingOption = none)
    (hr : findStoredConsignmentByLineItemId C.id C.quantity store = some r)
    (hropt : r.selectedShippingOptionId ≠ "") :
    countSetShippingOptionFor
      (initRestorePhase restoreFails physicalItems cp store).2 c.id = 1 := by
  rw [initRestorePhase_events_eq]
  obtain ⟨s, t, hst⟩ := List.append_of_mem hCmem
  subst hst
  have hids := hitems_nd
  rw [List.map_append, List.map_cons] at hids
  have hdisj2 := List.disjoint_of_nodup_append hids
  have hcons := (List.nodup_append.mp hids).2.1
  rw [List.nodup_cons] at hcons
  have hsne : ∀ e ∈ s, e.id ≠ C.id := by
    intro e he heq
    exact hdisj2 (List.mem_map_of_mem _ he) (by rw [heq]; exact List.mem_cons_self _ _)
  have htne : ∀ e ∈ t, e.id ≠ C.id := by
    intro e he heq
    exact hcons.1 (by rw [← heq]; exact List.mem_map_of_mem _ he)
  rw [List.flatMap_append, List.flatMap_cons,
    countSetShippingOptionFor_append, countSetShippingOptionFor_append]
  rw [countSet_flatMap_zero (s ++ C :: t) cp store s c.id
    (fun e he => restoreEventsForItem_other (s ++ C :: t) cp store e c C.id
      hcp_ids hc hcitems (hsne e he))]
  rw [countSet_flatMap_zero (s ++ C :: t) cp store t c.id
    (fun e he => restoreEventsForItem_other (s ++ C :: t) cp store e c C.id
      hcp_ids hc hcitems (htne e he))]
  rw [restoreEventsForItem_target (s ++ C :: t) cp store C c r hitems_nd
    hCmem hdisj hc hcitems hcnone hr hropt]
  simp [countSetShippingOptionFor, List.countP_cons]

/-- Deletion events never count as shipping-option PUTs. -/
theorem countSet_deletes (l : List Consignment) (cid : String) :
    countSetShippingOptionFor
      (l.map (fun c => GatewayEvent.deleteConsignment c.id)) cid = 0 := by
  induction l with
  | nil => simp [countSetShippingOptionFor]
  | cons d rest ih =>
    simp only [List.map_cons]
    unfold countSetShippingOptionFor at *
    rw [List.countP_cons]
    simp [ih]

/-- C4 (amended): for an incomplete remote consignment whose sole line item
has a matching cache record with a non-empty selectedShippingOptionId, and
whose restore PUT succeeds, the initialization pass issues the set-shipping
option call on that consignment exactly once and does not delete it, provided
the remote snapshot holds no multi-item consignment (a multi-item consignment
in an otherwise complete snapshot triggers the wholesale deleteConsignments
split path, which would remove the restored consignment too); moreover the
events of the restore loop are the same under every failure oracle, so a
failed restoration is skipped without aborting the rest of the pass. -/
theorem restore_called_once_and_survives (restoreFails : String → Bool)
    (hasDeleteConsignments : Bool) (physicalItems : List LineItem)
    (cp : List Consignment) (store : List StoredConsignment)
    (C : LineItem) (c : Consignment) (r : StoredConsignment)
    (hitems_nd : (physicalItems.map (fun i => i.id)).Nodup)
    (hCmem : C ∈ physicalItems)
    (hcp_ids : (cp.map (fun d => d.id)).Nodup)
    (hdisj : cp.Pairwise (fun x y => ∀ s ∈ x.lineItemIds, s ∉ y.lineItemIds))
    (hsingle : ∀ d ∈ cp, d.lineItemIds.length ≤ 1)
    (hc : c ∈ cp) (hcitems : c.lineItemIds = [C.id])
    (hcnone : c.selectedShippingOption = none)
    (hr : findStoredConsignmentByLineItemId C.id C.quantity store = some r)
    (hropt : r.selectedShippingOptionId ≠ "")
    (hok : restoreFails c.id = false) :
    countSetShippingOptionFor (initConsignments restoreFails
        hasDeleteConsignments physicalItems cp store).events c.id = 1 ∧
    GatewayEvent.setShippingOption c.id r.selectedShippingOptionId ∈
      (initConsignments restoreFails hasDeleteConsignments physicalItems cp
        store).events ∧
    GatewayEvent.deleteConsignment c.id ∉ (initConsignments restoreFails
      hasDeleteConsignments physicalItems cp store).events ∧
    GatewayEvent.deleteAllConsignments ∉ (initConsignments restoreFails
      hasDeleteConsignments physicalItems cp store).events ∧
    (∃ x ∈ (initConsignments restoreFails hasDeleteConsignments physicalItems
        cp store).gateway, x.id = c.id ∧ x.selectedShippingOption.isSome) ∧
    (∀ f g : String → Bool,
      (initRestorePhase f physicalItems cp store).2 =
        (initRestorePhase g physicalItems cp store).2) := by
  set phase1 := initRestorePhase restoreFails physicalItems cp store
    with hphase1
  set refetched := phase1.1 with hrefetched
  set toRemove := refetched.filter (fun c => c.selectedShippingOption.isNone)
    with htoRemove
  have hout : initConsignments restoreFails hasDeleteConsignments physicalItems
      cp store =
      (if toRemove.length > 0 then
        { refetched,
          gateway := (toRemove.foldl initDeleteStep (refetched, store, [])).1,
          store := (toRemove.foldl initDeleteStep (refetched, store, [])).2.1,
          events := phase1.2 ++ (toRemove.foldl initDeleteStep
            (refetched, store, [])).2.2 }
      else if (refetched.filter (fun c => c.lineItemIds.length > 1)).length > 0 &&
          hasDeleteConsignments then
        { refetched, gateway := [], store,
          events := phase1.2 ++ [.deleteAllConsignments] }
      else { refetched, gateway := refetched, store, events := phase1.2 }) := rfl
  have hsk : refetched.map skeleton = cp.map skeleton :=
    initRestorePhase_skeleton restoreFails physicalItems cp store
  have hsur : ∃ x ∈ refetched, x.id = c.id ∧ x.selectedShippingOption.isSome :=
    initRestorePhase_completes_target restoreFails physicalItems cp store C c r
      hitems_nd hCmem hdisj hc hcitems hcnone hr hropt hok
  have hcount : countSetShippingOptionFor phase1.2 c.id = 1 :=
    initRestorePhase_count_one restoreFails physicalItems cp store C c r
      hitems_nd hCmem hcp_ids hdisj hc hcitems hcnone hr hropt
  have hmemev : GatewayEvent.setShippingOption c.id r.selectedShippingOptionId ∈
      phase1.2 := by
    rw [hphase1, initRestorePhase_events_eq]
    refine List.mem_flatMap.mpr ⟨C, hCmem, ?_⟩
    rw [restoreEventsForItem_target physicalItems cp store C c r hitems_nd
      hCmem hdisj hc hcitems hcnone hr hropt]
    exact List.mem_singleton.mpr rfl
  have honly : ∀ ev ∈ phase1.2, ∃ k o, ev = .setShippingOption k o := by
    intro ev hev
    rw [hphase1, initRestorePhase_events_eq] at hev
    obtain ⟨e, he, hev2⟩ := List.mem_flatMap.mp hev
    exact restoreEventsForItem_only_set physicalItems cp store e ev hev2
  have href_ids : refetched.map (fun d => d.id) = cp.map (fun d => d.id) :=
    skeleton_map_id refetched cp hsk
  have href_nd : (refetched.map (fun d => d.id)).Nodup := by
    rw [href_ids]; exact hcp_ids
  have hto_ne : ∀ d ∈ toRemove, d.id ≠ c.id := by
    intro d hd heq
    have hdref : d ∈ refetched := (List.mem_filter.mp hd).1
    have hdnone : d.selectedShippingOption.isNone := by
      simpa using (List.mem_filter.mp hd).2
    obtain ⟨x, hx, hxid, hxsome⟩ := hsur
    have hdx : d = x :=
      List.inj_on_of_nodup_map href_nd hdref hx (by rw [heq, hxid])
    rw [hdx, Option.isNone_iff_eq_none] at hdnone
    rw [hdnone] at hxsome
    simp at hxsome
  have hsplit_nil : refetched.filter (fun c => c.lineItemIds.length > 1) = [] := by
    apply List.filter_eq_nil_iff.mpr
    intro d hd
    obtain ⟨d2, hd2, heq⟩ := skeleton_mem_lineItemIds refetched cp hsk d hd
    have hlen := hsingle d2 hd2
    rw [heq] at hlen
    simpa using hlen
  have hindep : ∀ f g : String → Bool,
      (initRestorePhase f physicalItems cp store).2 =
        (initRestorePhase g physicalItems cp store).2 := by
    intro f g
    rw [initRestorePhase_events_eq, initRestorePhase_events_eq]
  by_cases hrem : toRemove.length > 0
  · have hev2 := initDeleteStep_foldl_events toRemove (refetched, store, [])
    refine ⟨?_, ?_, ?_, ?_, ?_, hindep⟩
    · rw [hout, if_pos hrem]
      simp only
      rw [countSetShippingOptionFor_append, hcount, hev2]
      simp only [List.nil_append]
      rw [countSet_deletes]
    · rw [hout, if_pos hrem]
      simp only
      exact List.mem_append.mpr (Or.inl hmemev)
    · rw [hout, if_pos hrem]
      simp only
      intro hmem
      rcases List.mem_append.mp hmem with hmem | hmem
      · obtain ⟨k, o, hko⟩ := honly _ hmem
        exact GatewayEvent.noConfusion hko
      · rw [hev2] at hmem
        simp only [List.nil_append] at hmem
        obtain ⟨d, hd, hdel⟩ := List.mem_map.mp hmem
        have : d.id = c.id := by
          have := GatewayEvent.deleteConsignment.inj hdel
          exact this
        exact hto_ne d hd this
    · rw [hout, if_pos hrem]
      simp only
      intro hmem
      rcases List.mem_append.mp hmem with hmem | hmem
      · obtain ⟨k, o, hko⟩ := honly _ hmem
        exact GatewayEvent.noConfusion hko
      · rw [hev2] at hmem
        simp only [List.nil_append] at hmem
        obtain ⟨d, _, hdel⟩ := List.mem_map.mp hmem
        exact GatewayEvent.noConfusion hdel
    · rw [hout, if_pos hrem]
      simp only
      obtain ⟨x, hx, hxid, hxsome⟩ := hsur
      refine ⟨x, ?_, hxid, hxsome⟩
      apply (initDeleteStep_foldl_mem toRemove (refetched, store, []) x).mpr
      refine ⟨hx, ?_⟩
      intro d hd
      rw [hxid]
      exact fun heq => hto_ne d hd (heq.symm ▸ rfl)
  · have hcond : ((refetched.filter (fun c => c.lineItemIds.length > 1)).length > 0 &&
        hasDeleteConsignments) = false := by
      rw [hsplit_nil]
      simp
    refine ⟨?_, ?_, ?_, ?_, ?_, hindep⟩
    · rw [hout, if_neg hrem]
      simp only [hcond, Bool.false_eq_true, if_neg, not_false_iff]
      exact hcount
    · rw [hout, if_neg hrem]
      simp only [hcond, Bool.false_eq_true, if_neg, not_false_iff]
      exact hmemev
    · rw [hout, if_neg hrem]
      simp only [hcond, Bool.false_eq_true, if_neg, not_false_iff]
      intro hmem
      obtain ⟨k, o, hko⟩ := honly _ hmem
      exact GatewayEvent.noConfusion hko
    · rw [hout, if_neg hrem]
      simp only [hcond, Bool.false_eq_true, if_neg, not_false_iff]
      intro hmem
      obtain ⟨k, o, hko⟩ := honly _ hmem
      exact GatewayEvent.noConfusion hko
    · rw [hout, if_neg hrem]
      simp only [hcond, Bool.false_eq_true, if_neg, not_false_iff]
      exact hsur

/-- C4 counterexample to the claim as universally stated: with one incomplete
single-item consignment (matching cache record, successful restore) plus a
complete multi-item consignment, and the deleteConsignments prop provided,
the pass restores the consignment and then deletes it anyway through the
wholesale split path, so the restored consignment does not survive. -/
theorem restore_deleted_by_split_counterexample :
    GatewayEvent.setShippingOption "c1" "opt-9" ∈
      (initConsignments (fun _ => false) true [⟨"A", "item", 1⟩]
        [⟨"c1", ["A"], some "addr", none, [⟨"opt-9"⟩]⟩,
         ⟨"d1", ["B", "C"], some "addr2", some ⟨"optM"⟩, []⟩]
        [⟨"c1", "A", 1, some "addr", "opt-9", none⟩]).events ∧
    GatewayEvent.deleteAllConsignments ∈
      (initConsignments (fun _ => false) true [⟨"A", "item", 1⟩]
        [⟨"c1", ["A"], some "addr", none, [⟨"opt-9"⟩]⟩,
         ⟨"d1", ["B", "C"], some "addr2", some ⟨"optM"⟩, []⟩]
        [⟨"c1", "A", 1, some "addr", "opt-9", none⟩]).events ∧
    (initConsignments (fun _ => false) true [⟨"A", "item", 1⟩]
        [⟨"c1", ["A"], some "addr", none, [⟨"opt-9"⟩]⟩,
         ⟨"d1", ["B", "C"], some "addr2", some ⟨"optM"⟩, []⟩]
        [⟨"c1", "A", 1, some "addr", "opt-9", none⟩]).gateway = [] := by
  refine ⟨?_, ?_, ?_⟩ <;> decide

/-- Witness for C4 at a concrete pass with a single-item snapshot. -/
theorem restore_called_once_and_survives_witness :
    (findStoredConsignmentByLineItemId "A" 1
        [⟨"c1", "A", 1, some "addr", "opt-9", none⟩] =
      some ⟨"c1", "A", 1, some "addr", "opt-9", none⟩) ∧
    (countSetShippingOptionFor (initConsignments (fun _ => false) true
        [⟨"A", "item", 1⟩] [⟨"c1", ["A"], some "addr", none, [⟨"opt-9"⟩]⟩]
        [⟨"c1", "A", 1, some "addr", "opt-9", none⟩]).events "c1" = 1 ∧
    GatewayEvent.setShippingOption "c1" "opt-9" ∈
      (initConsignments (fun _ => false) true [⟨"A", "item", 1⟩]
        [⟨"c1", ["A"], some "addr", none, [⟨"opt-9"⟩]⟩]
        [⟨"c1", "A", 1, some "addr", "opt-9", none⟩]).events ∧
    GatewayEvent.deleteConsignment "c1" ∉
      (initConsignments (fun _ => false) true [⟨"A", "item", 1⟩]
        [⟨"c1", ["A"], some "addr", none, [⟨"opt-9"⟩]⟩]
        [⟨"c1", "A", 1, some "addr", "opt-9", none⟩]).events ∧
    GatewayEvent.deleteAllConsignments ∉
      (initConsignments (fun _ => false) true [⟨"A", "item", 1⟩]
        [⟨"c1", ["A"], some "addr", none, [⟨"opt-9"⟩]⟩]
        [⟨"c1", "A", 1, some "addr", "opt-9", none⟩]).events ∧
    (∃ x ∈ (initConsignments (fun _ => false) true [⟨"A", "item", 1⟩]
        [⟨"c1", ["A"], some "addr", none, [⟨"opt-9"⟩]⟩]
        [⟨"c1", "A", 1, some "addr", "opt-9", none⟩]).gateway,
      x.id = "c1" ∧ x.selectedShippingOption.isSome) ∧
    (∀ f g : String → Bool,
      (initRestorePhase f [⟨"A", "item", 1⟩]
          [⟨"c1", ["A"], some "addr", none, [⟨"opt-9"⟩]⟩]
          [⟨"c1", "A", 1, some "addr", "opt-9", none⟩]).2 =
        (initRestorePhase g [⟨"A", "item", 1⟩]
          [⟨"c1", ["A"], some "addr", none, [⟨"opt-9"⟩]⟩]
          [⟨"c1", "A", 1, some "addr", "opt-9", none⟩]).2)) :=
  ⟨by decide,
   restore_called_once_and_survives (fun _ => false) true [⟨"A", "item", 1⟩]
     [⟨"c1", ["A"], some "addr", none, [⟨"opt-9"⟩]⟩]
     [⟨"c1", "A", 1, some "addr", "opt-9", none⟩]
     ⟨"A", "item", 1⟩ ⟨"c1", ["A"], some "addr", none, [⟨"opt-9"⟩]⟩
     ⟨"c1", "A", 1, some "addr", "opt-9", none⟩
     (by decide) (by decide) (by decide) (by decide) (by decide) (by decide)
     (by decide) (by decide) (by decide) (by decide) (by decide)⟩

/-- Product option attached to a cart line item (part_002, cartItems read from
the carts endpoint); the value may be absent. -/
structure ItemOption where
  name : String
  value : Option String
deriving DecidableEq, Repr

/-- Cart line item as read for the delivery-date feature (part_002); options
may be missing or not an array, hence Option. -/
structure CartItem where
  id : String
  options : Option (List ItemOption)
deriving DecidableEq, Repr

/-- JavaScript String.prototype.includes, via splitOn. -/
def stringIncludes (s pattern : String) : Bool :=
  (s.splitOn pattern).length > 1

/-- hasValidDeliveryDate (part_002 lines 1177-1195): an item with no
Delivery Date option needs no date; otherwise the option value must be
present and non-empty after trimming. A missing cart item or missing options
array yields false. -/
def hasValidDeliveryDate (cartItems : List CartItem) (itemId : String) : Bool :=
  match cartItems.find? (fun item => item.id == itemId) with
  | none => false
  | some cartItem =>
    match cartItem.options with
    | none => false
    | some options =>
      match options.find? (fun option =>
          option.name == "Delivery Date" || stringIncludes option.name "Delivery Date") with
      | none => true
      | some deliveryDateOption =>
        match deliveryDateOption.value with
        | none => false
        | some v => v.trim != ""

/-- JavaScript Boolean(configuredItems[key]) over the configured-items map. -/
def lookupConfigured (configuredItems : List (String × Bool)) (key : String) : Bool :=
  match configuredItems.find? (fun p => p.1 == key) with
  | some p => p.2
  | none => false

/-- The allItemsConfigured effect of the delivery-date variant (part_002 lines
1691-1708): false for an empty cart, otherwise every physical item must have
its configured flag set and a valid delivery date. -/
def allItemsConfiguredSignal (physicalItems : List LineItem)
    (configuredItems : List (String × Bool)) (cartItems : List CartItem) : Bool :=
  if physicalItems.length == 0 then false
  else physicalItems.all (fun item =>
    lookupConfigured configuredItems item.id && hasValidDeliveryDate cartItems item.id)

/-- Rendering gate of the final continue button (CustomShipping.tsx line 1918
and part_002): the button is rendered exactly when allItemsConfigured is
true. -/
def finalContinueOffered (allItemsConfigured : Bool) : Bool :=
  allItemsConfigured

/-- Local wizard entry for one line item (CustomShipping.tsx, interface
ConsignmentWithItem). -/
structure ConsignmentWithItem where
  id : Option String
  lineItemId : String
  shippingAddress : Option String
  selectedShippingOption : Option ShippingOption
  availableShippingOptions : List ShippingOption
deriving DecidableEq, Repr

/-- Whether the entry of a line item carries both a shipping address and a
selected shipping option. -/
def entryConfigured (itemConsignments : List ConsignmentWithItem)
    (lineItemId : String) : Bool :=
  match itemConsignments.find? (fun c => c.lineItemId == lineItemId) with
  | some c => c.shippingAddress.isSome && c.selectedShippingOption.isSome
  | none => false

/-- Modelled from the spec words for comparison: allConfigured(entries,
cartLineItems) is true iff every LineItem in the cart has a corresponding
entry with address and option present and, when delivery dates are in use,
a non-empty delivery-date value. -/
def specAllConfigured (physicalItems : List LineItem)
    (itemConsignments : List ConsignmentWithItem)
    (cartItems : List CartItem) : Bool :=
  physicalItems.all (fun item =>
    entryConfigured itemConsignments item.id && hasValidDeliveryDate cartItems item.id)

/-- C2 counterexample: on a cart with no physical items the derived signal is
false while the claimed characterization (every line item configured) is
vacuously true, so the stated equivalence fails. -/
theorem all_items_configured_empty_counterexample :
    allItemsConfiguredSignal [] [] [] = false ∧
    specAllConfigured [] [] [] = true ∧
    ¬((allItemsConfiguredSignal [] [] [] = true) ↔
      (specAllConfigured [] [] [] = true)) := by
  refine ⟨rfl, rfl, ?_⟩
  intro h
  exact absurd (h.mpr rfl) (by decide)

/-- C2 (amended): for a cart with at least one physical item, and with the
configured flags agreeing with the entry contents (as the initialization pass
establishes), the derived all-items-configured signal is true iff every
physical line item has an entry with address and option present and, when
delivery dates are in use for the item, a non-empty delivery-date value; the
final continue button is gated by exactly this signal. -/
theorem all_items_configured_signal_spec (physicalItems : List LineItem)
    (configuredItems : List (String × Bool))
    (itemConsignments : List ConsignmentWithItem) (cartItems : List CartItem)
    (hne : physicalItems ≠ [])
    (hflags : ∀ item ∈ physicalItems,
      lookupConfigured configuredItems item.id =
        entryConfigured itemConsignments item.id) :
    (allItemsConfiguredSignal physicalItems configuredItems cartItems = true ↔
      ∀ item ∈ physicalItems, entryConfigured itemConsignments item.id = true ∧
        hasValidDeliveryDate cartItems item.id = true) ∧
    finalContinueOffered
        (allItemsConfiguredSignal physicalItems configuredItems cartItems) =
      allItemsConfiguredSignal physicalItems configuredItems cartItems := by
  refine ⟨?_, rfl⟩
  unfold allItemsConfiguredSignal
  have hlen : (physicalItems.length == 0) = false := by
    cases physicalItems with
    | nil => exact absurd rfl hne
    | cons x xs => simp
  rw [hlen]
  simp only [Bool.false_eq_true, if_neg, not_false_iff, List.all_eq_true]
  constructor
  · intro h item hitem
    have := h item hitem
    rw [Bool.and_eq_true] at this
    rw [hflags item hitem] at this
    exact this
  · intro h item hitem
    rw [Bool.and_eq_true, hflags item hitem]
    exact h item hitem

/-- Witness for C2 at a concrete one-item cart. -/
theorem all_items_configured_signal_spec_witness :
    (([⟨"A", "item", 1⟩] : List LineItem) ≠ []) ∧
    (∀ item ∈ ([⟨"A", "item", 1⟩] : List LineItem),
      lookupConfigured [("A", true)] item.id =
        entryConfigured [⟨some "c1", "A", some "addr", some ⟨"optA"⟩, [⟨"optA"⟩]⟩]
          item.id) ∧
    ((allItemsConfiguredSignal [⟨"A", "item", 1⟩] [("A", true)]
        [⟨"A", some [⟨"Delivery Date", some "01/02/2026"⟩]⟩] = true ↔
      ∀ item ∈ ([⟨"A", "item", 1⟩] : List LineItem),
        entryConfigured [⟨some "c1", "A", some "addr", some ⟨"optA"⟩, [⟨"optA"⟩]⟩]
            item.id = true ∧
          hasValidDeliveryDate [⟨"A", some [⟨"Delivery Date", some "01/02/2026"⟩]⟩]
            item.id = true) ∧
    finalContinueOffered (allItemsConfiguredSignal [⟨"A", "item", 1⟩] [("A", true)]
        [⟨"A", some [⟨"Delivery Date", some "01/02/2026"⟩]⟩]) =
      allItemsConfiguredSignal [⟨"A", "item", 1⟩] [("A", true)]
        [⟨"A", some [⟨"Delivery Date", some "01/02/2026"⟩]⟩]) :=
  ⟨by decide, by decide,
   all_items_configured_signal_spec [⟨"A", "item", 1⟩] [("A", true)]
     [⟨some "c1", "A", some "addr", some ⟨"optA"⟩, [⟨"optA"⟩]⟩]
     [⟨"A", some [⟨"Delivery Date", some "01/02/2026"⟩]⟩]
     (by decide) (by decide)⟩

/-- React state of the wizard relevant to the orchestration core
(CustomShipping.tsx useState hooks). currentItemIndex is an integer because
the failure path of handleEditConsignment sets it to -1. -/
structure WizardState where
  isLoading : Bool
  isEditing : Bool
  currentItemIndex : Int
  error : Option String
  selectedAddress : Option String
  selectedShippingOption : Option ShippingOption
  itemConsignments : List ConsignmentWithItem
  configuredItems : List (String × Bool)
deriving DecidableEq, Repr

/-- JavaScript array indexing with a possibly negative index. -/
def itemAt (physicalItems : List LineItem) (i : Int) : Option LineItem :=
  if i < 0 then none else physicalItems[i.toNat]?

/-- Result of one wizard handler: the new component state, the session cache
and the Gateway calls and unhandled-error-sink invocations made. -/
structure HandlerResult where
  state : WizardState
  store : List StoredConsignment
  gatewayEvents : List GatewayEvent
  unhandledErrors : List String
deriving DecidableEq, Repr

/-- JavaScript object-spread update of the configured-items map:
existing key overwritten in place, missing key appended. -/
def setConfiguredFlag (configuredItems : List (String × Bool)) (key : String)
    (value : Bool) : List (String × Bool) :=
  if configuredItems.any (fun p => p.1 == key) then
    configuredItems.map (fun p => if p.1 == key then (p.1, value) else p)
  else configuredItems ++ [(key, value)]

/-- Bounded form of the skip-already-configured while loop of handleContinue:
the fuel argument dominates the number of remaining indices, making the
recursion structural so that concrete runs reduce in the kernel. -/
def findNextUnconfiguredAux (physicalItems : List LineItem)
    (flags : List (String × Bool)) : Nat → Nat → Nat
  | 0, j => j
  | fuel + 1, j =>
    if h : j < physicalItems.length then
      if lookupConfigured flags (physicalItems.get ⟨j, h⟩).id then
        findNextUnconfiguredAux physicalItems flags fuel (j + 1)
      else j
    else j

/-- The skip-already-configured while loop of handleContinue (lines 857-862):
starting at index j, advance while the item at the index has its configured
flag set. -/
def findNextUnconfigured (physicalItems : List LineItem)
    (flags : List (String × Bool)) (j : Nat) : Nat :=
  findNextUnconfiguredAux physicalItems flags (physicalItems.length - j) j

/-- Whether the consignment entry of the current item offers shipping options
(handleContinue lines 823-826). -/
def currentHasShippingOptions (physicalItems : List LineItem)
    (st : WizardState) : Bool :=
  let currentConsignmentObj : Option ConsignmentWithItem :=
    match itemAt physicalItems st.currentItemIndex with
    | some item => st.itemConsignments.find? (fun c => c.lineItemId == item.id)
    | none => none
  match currentConsignmentObj with
  | some currentConsignmentObj =>
    decide (currentConsignmentObj.availableShippingOptions.length > 0)
  | none => false

/-- handleContinue (CustomShipping.tsx lines 817-888): reject a missing
address, and a missing option when options are available; otherwise mark the
current item configured, leave edit mode and, when the current index is not
the last, advance to the first index after it whose configured flag is unset,
clearing the transient selections and then preloading them from the next item
own complete entry when it has one. -/
def handleContinue (physicalItems : List LineItem) (st : WizardState) :
    WizardState :=
  if st.selectedAddress.isNone then
    { st with error := some "Please select a shipping address" }
  else
    if currentHasShippingOptions physicalItems st &&
        st.selectedShippingOption.isNone then
      { st with error := some "Please select a shipping method" }
    else
      match itemAt physicalItems st.currentItemIndex with
      | none => st
      | some currentItem =>
        let st1 := { st with
          configuredItems := setConfiguredFlag st.configuredItems currentItem.id true,
          isEditing := false }
        if st.currentItemIndex < (physicalItems.length : Int) - 1 then
          let updatedConfiguredItems :=
            setConfiguredFlag st.configuredItems currentItem.id true
          let nextItemIndex := findNextUnconfigured physicalItems
            updatedConfiguredItems (st.currentItemIndex.toNat + 1)
          if nextItemIndex < physicalItems.length then
            let st2 := { st1 with
              currentItemIndex := (nextItemIndex : Int),
              selectedAddress := none,
              selectedShippingOption := none }
            match physicalItems[nextItemIndex]? with
            | none => st2
            | some nextItem =>
              match st.itemConsignments.find? (fun c => c.lineItemId == nextItem.id) with
              | none => st2
              | some nextConsignment =>
                if nextConsignment.shippingAddress.isSome &&
                    nextConsignment.selectedShippingOption.isSome &&
                    decide (nextConsignment.availableShippingOptions.length > 0) then
                  { st2 with
                    selectedAddress := nextConsignment.shippingAddress,
                    selectedShippingOption := nextConsignment.selectedShippingOption }
                else st2
          else st1
        else st1

/-- Modelled from the spec words for comparison:
firstUnconfiguredIndex(orderedItems, entries) is the linear scan in
OriginalOrder for the first item that is not configured. -/
def specFirstUnconfiguredIndex (physicalItems : List LineItem)
    (flags : List (String × Bool)) : Option Nat :=
  physicalItems.findIdx? (fun item => !(lookupConfigured flags item.id))

/-- handleEditConsignment (CustomShipping.tsx lines 1476-1596): when any
configured flag is false the call is rejected with a user-visible message and
nothing else happens; otherwise the component enters edit mode on the given
index, refetches the checkout, refreshes the cache record and the entry of the
item from the relevant consignment, marks every other item configured, and
preloads the selections from a complete consignment. The gatewayConsignments
parameter is the consignment list of the refetched checkout. -/
def handleEditConsignment (gatewayConsignments : List Consignment)
    (physicalItems : List LineItem) (store : List StoredConsignment)
    (st : WizardState) (index : Nat) : HandlerResult :=
  if st.configuredItems.any (fun p => p.2 == false) then
    { state := { st with
        error := some "Please complete editing the current item first" },
      store := store, gatewayEvents := [], unhandledErrors := [] }
  else
    match physicalItems[index]? with
    | none =>
      { state := { st with
          isLoading := false,
          isEditing := false,
          currentItemIndex := -1,
          error := some "Error editing consignment: item id unavailable" },
        store := store, gatewayEvents := [.readCheckout],
        unhandledErrors := ["TypeError"] }
    | some item =>
      let relevantConsignment := gatewayConsignments.find? (fun c =>
        c.lineItemIds.contains item.id)
      let updatedConfiguredItems := st.configuredItems.map (fun p =>
        if p.1 == item.id then (p.1, false) else (p.1, true))
      let st1 := { st with
        isEditing := true,
        currentItemIndex := (index : Int),
        selectedAddress := none,
        selectedShippingOption := none,
        isLoading := false }
      match relevantConsignment with
      | none =>
        { state := st1, store := store,
          gatewayEvents := [.readCheckout, .readCheckout], unhandledErrors := [] }
      | some rc =>
        let store2 := updateStoredConsignment rc.id item.id item.quantity
          rc.shippingAddress
          (match rc.selectedShippingOption with | some o => o.id | none => "")
          none store
        match st.itemConsignments.findIdx? (fun c => c.lineItemId == item.id) with
        | none =>
          { state := { st1 with configuredItems := updatedConfiguredItems },
            store := store2, gatewayEvents := [.readCheckout, .readCheckout],
            unhandledErrors := [] }
        | some consignmentIndex =>
          let newEntry : ConsignmentWithItem :=
            { id := some rc.id, lineItemId := item.id,
              shippingAddress := rc.shippingAddress,
              selectedShippingOption := rc.selectedShippingOption,
              availableShippingOptions := rc.availableShippingOptions }
          let st2 := { st1 with
            itemConsignments := st.itemConsignments.set consignmentIndex newEntry,
            configuredItems := updatedConfiguredItems }
          if rc.shippingAddress.isSome && rc.selectedShippingOption.isSome then
            { state := { st2 with
                selectedAddress := rc.shippingAddress,
                selectedShippingOption := rc.selectedShippingOption },
              store := store2, gatewayEvents := [.readCheckout, .readCheckout],
              unhandledErrors := [] }
          else
            { state := st2, store := store2,
              gatewayEvents := [.readCheckout, .readCheckout],
              unhandledErrors := [] }

/-- handleAddressSelect (CustomShipping.tsx lines 715-785) with the embedded
createConsignment call (lines 521-601). The validation outcome, the failure
of the Gateway call and the consignment list of the Gateway response are
parameters; the validity check only runs when the getFields prop is
provided. -/
def handleAddressSelect (hasGetFields : Bool) (isValid : Bool)
    (createFails : Bool) (consignmentsProp : List Consignment)
    (resultConsignments : List Consignment) (physicalItems : List LineItem)
    (store : List StoredConsignment) (st : WizardState) (address : String) :
    HandlerResult :=
  if hasGetFields && !isValid then
    { state := { st with
        error := some "Please provide a valid address with all required fields",
        isEditing := false },
      store := store, gatewayEvents := [], unhandledErrors := ["InvalidAddressError"] }
  else
    let st1 := { st with selectedAddress := some address }
    match itemAt physicalItems st.currentItemIndex with
    | none =>
      { state := { st1 with isLoading := false }, store := store,
        gatewayEvents := [], unhandledErrors := [] }
    | some currentItem =>
      let event := match consignmentsProp.find? (fun c =>
          c.lineItemIds.length == 1 && c.lineItemIds.getD 0 "" == currentItem.id) with
        | some existingConsignment =>
          GatewayEvent.updateConsignmentAddress existingConsignment.id
            currentItem.id currentItem.quantity
        | none => GatewayEvent.createConsignment currentItem.id currentItem.quantity
      if createFails then
        { state := { st1 with
            error := some "Error creating consignment",
            isEditing := false,
            isLoading := false },
          store := store, gatewayEvents := [event],
          unhandledErrors := ["Error creating consignment"] }
      else
        match resultConsignments.find? (fun c =>
            c.lineItemIds.contains currentItem.id) with
        | none =>
          { state := { st1 with isLoading := false }, store := store,
            gatewayEvents := [event], unhandledErrors := [] }
        | some newConsignment =>
          let store2 := saveConsignmentToSession newConsignment.id
            currentItem.id currentItem.quantity (some address)
            (match newConsignment.selectedShippingOption with
              | some o => o.id | none => "") none store
          match st.itemConsignments.findIdx? (fun c =>
              c.lineItemId == currentItem.id) with
          | none =>
            { state := { st1 with isLoading := false }, store := store2,
              gatewayEvents := [event], unhandledErrors := [] }
          | some currentIndex =>
            match st.itemConsignments[currentIndex]? with
            | none =>
              { state := { st1 with isLoading := false }, store := store2,
                gatewayEvents := [event], unhandledErrors := [] }
            | some entry =>
              let updatedEntry := { entry with
                id := some newConsignment.id,
                shippingAddress := some address,
                availableShippingOptions := newConsignment.availableShippingOptions }
              { state := { st1 with
                  itemConsignments := st.itemConsignments.set currentIndex updatedEntry,
                  isLoading := false },
                store := store2, gatewayEvents := [event, .readCheckout],
                unhandledErrors := [] }

/-- C6: while any entry of the configured-items map is false (an item is
mid-edit), handleEditConsignment on any index, in particular on a different
already-configured item, is rejected with a user-visible validation error;
the state is otherwise untouched, the session cache is untouched, no Gateway
call is made and the unhandled-error sink is not invoked. -/
theorem edit_rejected_while_editing (gatewayConsignments : List Consignment)
    (physicalItems : List LineItem) (store : List StoredConsignment)
    (st : WizardState) (index : Nat)
    (hmid : ∃ p ∈ st.configuredItems, p.2 = false) :
    handleEditConsignment gatewayConsignments physicalItems store st index =
      { state := { st with
          error := some "Please complete editing the current item first" },
        store := store, gatewayEvents := [], unhandledErrors := [] } := by
  unfold handleEditConsignment
  have hany : st.configuredItems.any (fun p => p.2 == false) = true := by
    obtain ⟨p, hp, hp2⟩ := hmid
    exact List.any_eq_true.mpr ⟨p, hp, by rw [hp2]; rfl⟩
  rw [if_pos hany]

/-- Witness for C6: item B is mid-edit (flag false), editing configured item A
is rejected. -/
theorem edit_rejected_while_editing_witness :
    (∃ p ∈ [("A", true), ("B", false)], p.2 = false) ∧
    handleEditConsignment [] [⟨"A", "a", 1⟩, ⟨"B", "b", 2⟩] []
        ⟨false, true, 1, none, none, none, [], [("A", true), ("B", false)]⟩ 0 =
      { state := ⟨false, true, 1,
          some "Please complete editing the current item first", none, none, [],
          [("A", true), ("B", false)]⟩,
        store := [], gatewayEvents := [], unhandledErrors := [] } :=
  ⟨⟨("B", false), by decide, rfl⟩,
   edit_rejected_while_editing [] [⟨"A", "a", 1⟩, ⟨"B", "b", 2⟩] []
     ⟨false, true, 1, none, none, none, [], [("A", true), ("B", false)]⟩ 0
     ⟨("B", false), by decide, rfl⟩⟩

/-- Characterization of the bounded scan: with enough fuel it lands on an
index no smaller than the start, every skipped index holds a configured item,
and when the result is in range the item there is unconfigured. -/
theorem findNextUnconfiguredAux_spec (physicalItems : List LineItem)
    (flags : List (String × Bool)) :
    ∀ (fuel j : Nat), physicalItems.length - j ≤ fuel →
    j ≤ findNextUnconfiguredAux physicalItems flags fuel j ∧
    (∀ k, j ≤ k → k < findNextUnconfiguredAux physicalItems flags fuel j →
      ∀ it, physicalItems[k]? = some it → lookupConfigured flags it.id = true) ∧
    (findNextUnconfiguredAux physicalItems flags fuel j < physicalItems.length →
      ∃ it, physicalItems[findNextUnconfiguredAux physicalItems flags fuel j]? =
          some it ∧ lookupConfigured flags it.id = false) := by
  intro fuel
  induction fuel with
  | zero =>
    intro j hj
    unfold findNextUnconfiguredAux
    refine ⟨Nat.le_refl j, ?_, ?_⟩
    · intro k hk1 hk2
      omega
    · intro hlt
      omega
  | succ fuel ih =>
    intro j hj
    unfold findNextUnconfiguredAux
    by_cases h : j < physicalItems.length
    · rw [dif_pos h]
      by_cases hf : lookupConfigured flags (physicalItems.get ⟨j, h⟩).id
      · rw [if_pos hf]
        obtain ⟨ihge, ihskip, ihfound⟩ := ih (j + 1) (by omega)
        refine ⟨by omega, ?_, ihfound⟩
        intro k hk1 hk2 it hit
        rcases Nat.eq_or_lt_of_le hk1 with hk | hk
        · rw [← hk] at hit
          have hsome : physicalItems[j]? = some (physicalItems.get ⟨j, h⟩) := by
            rw [List.getElem?_eq_getElem h]
            rfl
          rw [hsome] at hit
          have := Option.some.inj hit
          rw [← this]
          exact hf
        · exact ihskip k hk hk2 it hit
      · rw [if_neg hf]
        refine ⟨Nat.le_refl j, ?_, ?_⟩
        · intro k hk1 hk2
          omega
        · intro _
          refine ⟨physicalItems.get ⟨j, h⟩, ?_, ?_⟩
          · rw [List.getElem?_eq_getElem h]
            rfl
          · simpa using hf
    · rw [dif_neg h]
      refine ⟨Nat.le_refl j, ?_, ?_⟩
      · intro k hk1 hk2
        omega
      · intro hlt
        exact absurd hlt h

/-- Characterization of the while loop itself. -/
theorem findNextUnconfigured_spec (physicalItems : List LineItem)
    (flags : List (String × Bool)) (j : Nat) :
    j ≤ findNextUnconfigured physicalItems flags j ∧
    (∀ k, j ≤ k → k < findNextUnconfigured physicalItems flags j →
      ∀ it, physicalItems[k]? = some it → lookupConfigured flags it.id = true) ∧
    (findNextUnconfigured physicalItems flags j < physicalItems.length →
      ∃ it, physicalItems[findNextUnconfigured physicalItems flags j]? = some it ∧
        lookupConfigured flags it.id = false) :=
  findNextUnconfiguredAux_spec physicalItems flags (physicalItems.length - j) j
    (Nat.le_refl _)

/-- C7 counterexample: with items [A, B, C], A and C unconfigured and B the
current item, a continue whose preconditions hold advances the pointer to
index 2 (item C), not to index 0 (item A), although A is the first
unconfigured item in original order; so the claimed advance to
firstUnconfiguredIndex fails. -/
theorem continue_pointer_counterexample :
    (handleContinue [⟨"A", "a", 1⟩, ⟨"B", "b", 1⟩, ⟨"C", "c", 1⟩]
        ⟨false, true, 1, none, some "addr", none,
          [⟨none, "A", none, none, []⟩, ⟨none, "B", some "addr", none, []⟩,
           ⟨none, "C", none, none, []⟩],
          [("A", false), ("B", false), ("C", false)]⟩).currentItemIndex = 2 ∧
    specFirstUnconfiguredIndex [⟨"A", "a", 1⟩, ⟨"B", "b", 1⟩, ⟨"C", "c", 1⟩]
        (setConfiguredFlag [("A", false), ("B", false), ("C", false)] "B" true) =
      some 0 ∧
    ((2 : Int) ≠ (0 : Int)) ∧
    (some "addr" : Option String).isSome = true ∧
    currentHasShippingOptions [⟨"A", "a", 1⟩, ⟨"B", "b", 1⟩, ⟨"C", "c", 1⟩]
      ⟨false, true, 1, none, some "addr", none,
        [⟨none, "A", none, none, []⟩, ⟨none, "B", some "addr", none, []⟩,
         ⟨none, "C", none, none, []⟩],
        [("A", false), ("B", false), ("C", false)]⟩ = false := by
  refine ⟨?_, ?_, ?_, ?_, ?_⟩ <;> decide

/-- C7 (amended): when the preconditions hold (an address is selected, and an
option is selected whenever the current entry offers options), handleContinue
marks the current item configured and leaves edit mode without raising an
error; when the current index is not the last and some later index holds an
unconfigured item, the pointer advances to the first such index after the
current one (not the first unconfigured item in the whole original order),
and the transient selections are either cleared or taken from the advanced
item own entry, never from the previous item; otherwise the pointer stays. -/
theorem continue_marks_and_advances (physicalItems : List LineItem)
    (st : WizardState) (currentItem : LineItem)
    (haddr : st.selectedAddress.isSome)
    (hopt : currentHasShippingOptions physicalItems st = true →
      st.selectedShippingOption.isSome)
    (hcur : itemAt physicalItems st.currentItemIndex = some currentItem) :
    (handleContinue physicalItems st).configuredItems =
      setConfiguredFlag st.configuredItems currentItem.id true ∧
    (handleContinue physicalItems st).error = st.error ∧
    (handleContinue physicalItems st).isEditing = false ∧
    ((st.currentItemIndex < (physicalItems.length : Int) - 1 ∧
        findNextUnconfigured physicalItems
          (setConfiguredFlag st.configuredItems currentItem.id true)
          (st.currentItemIndex.toNat + 1) < physicalItems.length) →
      (handleContinue physicalItems st).currentItemIndex =
        ((findNextUnconfigured physicalItems
          (setConfiguredFlag st.configuredItems currentItem.id true)
          (st.currentItemIndex.toNat + 1) : Nat) : Int) ∧
      (∀ k, st.currentItemIndex.toNat + 1 ≤ k →
        k < findNextUnconfigured physicalItems
          (setConfiguredFlag st.configuredItems currentItem.id true)
          (st.currentItemIndex.toNat + 1) →
        ∀ it, physicalItems[k]? = some it →
          lookupConfigured
            (setConfiguredFlag st.configuredItems currentItem.id true) it.id = true) ∧
      (∃ it, physicalItems[findNextUnconfigured physicalItems
          (setConfiguredFlag st.configuredItems currentItem.id true)
          (st.currentItemIndex.toNat + 1)]? = some it ∧
        lookupConfigured
          (setConfiguredFlag st.configuredItems currentItem.id true) it.id = false) ∧
      (((handleContinue physicalItems st).selectedAddress = none ∧
        (handleContinue physicalItems st).selectedShippingOption = none) ∨
       (∃ nextItem, physicalItems[findNextUnconfigured physicalItems
            (setConfiguredFlag st.configuredItems currentItem.id true)
            (st.currentItemIndex.toNat + 1)]? = some nextItem ∧
          ∃ nc ∈ st.itemConsignments, nc.lineItemId = nextItem.id ∧
            (handleContinue physicalItems st).selectedAddress = nc.shippingAddress ∧
            (handleContinue physicalItems st).selectedShippingOption =
              nc.selectedShippingOption))) ∧
    (¬(st.currentItemIndex < (physicalItems.length : Int) - 1 ∧
        findNextUnconfigured physicalItems
          (setConfiguredFlag st.configuredItems currentItem.id true)
          (st.currentItemIndex.toNat + 1) < physicalItems.length) →
      (handleContinue physicalItems st).currentItemIndex = st.currentItemIndex ∧
      (handleContinue physicalItems st).selectedAddress = st.selectedAddress ∧
      (handleContinue physicalItems st).selectedShippingOption =
        st.selectedShippingOption) := by
  have hnone : st.selectedAddress.isNone = false := by
    cases hsa : st.selectedAddress with
    | none => rw [hsa] at haddr; exact absurd haddr (by simp)
    | some a => rfl
  have hguard : (currentHasShippingOptions physicalItems st &&
      st.selectedShippingOption.isNone) = false := by
    by_cases hho : currentHasShippingOptions physicalItems st = true
    · have := hopt hho
      have hsn : st.selectedShippingOption.isNone = false := by
        cases hso : st.selectedShippingOption with
        | none => rw [hso] at this; exact absurd this (by simp)
        | some o => rfl
      rw [hho, hsn]
      rfl
    · have : currentHasShippingOptions physicalItems st = false :=
        Bool.eq_false_iff.mpr hho
      rw [this]
      rfl
  unfold handleContinue
  rw [hnone, hguard]
  simp only [Bool.false_eq_true, if_neg, not_false_iff]
  rw [hcur]
  dsimp only
  obtain ⟨hge, hskip, hfound⟩ := findNextUnconfigured_spec physicalItems
    (setConfiguredFlag st.configuredItems currentItem.id true)
    (st.currentItemIndex.toNat + 1)
  by_cases hlt : st.currentItemIndex < (physicalItems.length : Int) - 1
  · rw [if_pos hlt]
    by_cases hjlt : findNextUnconfigured physicalItems
        (setConfiguredFlag st.configuredItems currentItem.id true)
        (st.currentItemIndex.toNat + 1) < physicalItems.length
    · rw [if_pos hjlt]
      cases hnext : physicalItems[findNextUnconfigured physicalItems
          (setConfiguredFlag st.configuredItems currentItem.id true)
          (st.currentItemIndex.toNat + 1)]? with
      | none =>
        obtain ⟨it, hit, _⟩ := hfound hjlt
        rw [hnext] at hit
        exact absurd hit (by simp)
      | some nextItem =>
        have hlknext : lookupConfigured
            (setConfiguredFlag st.configuredItems currentItem.id true)
            nextItem.id = false := by
          obtain ⟨it, hit, hlk⟩ := hfound hjlt
          rw [hnext] at hit
          rw [Option.some.inj hit]
          exact hlk
        dsimp only
        cases hfind : st.itemConsignments.find? (fun c =>
            c.lineItemId == nextItem.id) with
        | none =>
          dsimp only
          refine ⟨rfl, rfl, rfl, ?_, ?_⟩
          · intro _
            exact ⟨rfl, hskip, ⟨nextItem, rfl, hlknext⟩, Or.inl ⟨rfl, rfl⟩⟩
          · intro hn
            exact absurd ⟨hlt, hjlt⟩ hn
        | some nextConsignment =>
          dsimp only
          by_cases hcomplete : (nextConsignment.shippingAddress.isSome &&
              nextConsignment.selectedShippingOption.isSome &&
              decide (nextConsignment.availableShippingOptions.length > 0)) = true
          · rw [if_pos hcomplete]
            refine ⟨rfl, rfl, rfl, ?_, ?_⟩
            · intro _
              refine ⟨rfl, hskip, ⟨nextItem, rfl, hlknext⟩, Or.inr ?_⟩
              refine ⟨nextItem, rfl, nextConsignment,
                List.mem_of_find?_eq_some hfind, ?_, rfl, rfl⟩
              have := List.find?_some hfind
              simpa using this
            · intro hn
              exact absurd ⟨hlt, hjlt⟩ hn
          · rw [if_neg hcomplete]
            refine ⟨rfl, rfl, rfl, ?_, ?_⟩
            · intro _
              exact ⟨rfl, hskip, ⟨nextItem, rfl, hlknext⟩, Or.inl ⟨rfl, rfl⟩⟩
            · intro hn
              exact absurd ⟨hlt, hjlt⟩ hn
    · rw [if_neg hjlt]
      refine ⟨rfl, rfl, rfl, ?_, ?_⟩
      · intro hn
        exact absurd hn.2 hjlt
      · intro _
        exact ⟨rfl, rfl, rfl⟩
  · rw [if_neg hlt]
    refine ⟨rfl, rfl, rfl, ?_, ?_⟩
    · intro hn
      exact absurd hn.1 hlt
    · intro _
      exact ⟨rfl, rfl, rfl⟩

/-- Witness for C7 at a one-item cart where the continue succeeds and the
pointer stays put. -/
theorem continue_marks_and_advances_witness :
    ((⟨false, true, 0, none, some "addr", none, [], []⟩ :
        WizardState).selectedAddress.isSome = true) ∧
    (currentHasShippingOptions [⟨"A", "a", 1⟩]
        ⟨false, true, 0, none, some "addr", none, [], []⟩ = true →
      (⟨false, true, 0, none, some "addr", none, [], []⟩ :
        WizardState).selectedShippingOption.isSome = true) ∧
    (itemAt [⟨"A", "a", 1⟩]
        (⟨false, true, 0, none, some "addr", none, [], []⟩ :
          WizardState).currentItemIndex = some ⟨"A", "a", 1⟩) ∧
    ((handleContinue [⟨"A", "a", 1⟩]
        ⟨false, true, 0, none, some "addr", none, [], []⟩).configuredItems =
      setConfiguredFlag [] "A" true ∧
    (handleContinue [⟨"A", "a", 1⟩]
        ⟨false, true, 0, none, some "addr", none, [], []⟩).error = none ∧
    (handleContinue [⟨"A", "a", 1⟩]
        ⟨false, true, 0, none, some "addr", none, [], []⟩).isEditing = false ∧
    (((0 : Int) < (([⟨"A", "a", 1⟩] : List LineItem).length : Int) - 1 ∧
        findNextUnconfigured [⟨"A", "a", 1⟩] (setConfiguredFlag [] "A" true)
          ((0 : Int).toNat + 1) < ([⟨"A", "a", 1⟩] : List LineItem).length →
      (handleContinue [⟨"A", "a", 1⟩]
          ⟨false, true, 0, none, some "addr", none, [], []⟩).currentItemIndex =
        ((findNextUnconfigured [⟨"A", "a", 1⟩] (setConfiguredFlag [] "A" true)
          ((0 : Int).toNat + 1) : Nat) : Int) ∧
      (∀ k, (0 : Int).toNat + 1 ≤ k →
        k < findNextUnconfigured [⟨"A", "a", 1⟩] (setConfiguredFlag [] "A" true)
          ((0 : Int).toNat + 1) →
        ∀ it, ([⟨"A", "a", 1⟩] : List LineItem)[k]? = some it →
          lookupConfigured (setConfiguredFlag [] "A" true) it.id = true) ∧
      (∃ it, ([⟨"A", "a", 1⟩] : List LineItem)[findNextUnconfigured [⟨"A", "a", 1⟩]
          (setConfiguredFlag [] "A" true) ((0 : Int).toNat + 1)]? = some it ∧
        lookupConfigured (setConfiguredFlag [] "A" true) it.id = false) ∧
      (((handleContinue [⟨"A", "a", 1⟩]
          ⟨false, true, 0, none, some "addr", none, [], []⟩).selectedAddress = none ∧
        (handleContinue [⟨"A", "a", 1⟩]
          ⟨false, true, 0, none, some "addr", none, [], []⟩).selectedShippingOption =
            none) ∨
       (∃ nextItem, ([⟨"A", "a", 1⟩] : List LineItem)[findNextUnconfigured
            [⟨"A", "a", 1⟩] (setConfiguredFlag [] "A" true)
            ((0 : Int).toNat + 1)]? = some nextItem ∧
          ∃ nc ∈ ([] : List ConsignmentWithItem), nc.lineItemId = nextItem.id ∧
            (handleContinue [⟨"A", "a", 1⟩]
              ⟨false, true, 0, none, some "addr", none, [], []⟩).selectedAddress =
                nc.shippingAddress ∧
            (handleContinue [⟨"A", "a", 1⟩]
              ⟨false, true, 0, none, some "addr", none, [], []⟩).selectedShippingOption =
                nc.selectedShippingOption))) ∧
    (¬((0 : Int) < (([⟨"A", "a", 1⟩] : List LineItem).length : Int) - 1 ∧
        findNextUnconfigured [⟨"A", "a", 1⟩] (setConfiguredFlag [] "A" true)
          ((0 : Int).toNat + 1) < ([⟨"A", "a", 1⟩] : List LineItem).length) →
      (handleContinue [⟨"A", "a", 1⟩]
          ⟨false, true, 0, none, some "addr", none, [], []⟩).currentItemIndex = 0 ∧
      (handleContinue [⟨"A", "a", 1⟩]
          ⟨false, true, 0, none, some "addr", none, [], []⟩).selectedAddress =
        some "addr" ∧
      (handleContinue [⟨"A", "a", 1⟩]
          ⟨false, true, 0, none, some "addr", none, [], []⟩).selectedShippingOption =
        none))) :=
  ⟨by decide, by decide, by decide,
   continue_marks_and_advances [⟨"A", "a", 1⟩]
     ⟨false, true, 0, none, some "addr", none, [], []⟩ ⟨"A", "a", 1⟩
     (by decide) (by decide) (by decide)⟩

/-- C8: handleAddressSelect on an address that fails validation (the field
requirements collaborator being provided) surfaces an error message, aborts
the edit, and performs no other mutation: the configuration entries, the
transient selections and the session cache are untouched, no Gateway
consignment call is made, and an InvalidAddressError is reported to the
unhandled-error sink. -/
theorem invalid_address_rejected (hasGetFields isValid createFails : Bool)
    (consignmentsProp resultConsignments : List Consignment)
    (physicalItems : List LineItem) (store : List StoredConsignment)
    (st : WizardState) (address : String)
    (hgf : hasGetFields = true) (hinv : isValid = false) :
    handleAddressSelect hasGetFields isValid createFails consignmentsProp
        resultConsignments physicalItems store st address =
      { state := { st with
          error := some "Please provide a valid address with all required fields",
          isEditing := false },
        store := store, gatewayEvents := [],
        unhandledErrors := ["InvalidAddressError"] } := by
  unfold handleAddressSelect
  rw [hgf, hinv]
  rfl

/-- Witness for C8 at a concrete state and invalid address. -/
theorem invalid_address_rejected_witness :
    (true = true) ∧ (false = false) ∧
    handleAddressSelect true false false [] [] [⟨"A", "a", 1⟩] []
        ⟨false, true, 0, none, none, none, [⟨none, "A", none, none, []⟩],
          [("A", false)]⟩ "bad-address" =
      { state := ⟨false, false, 0,
          some "Please provide a valid address with all required fields",
          none, none, [⟨none, "A", none, none, []⟩], [("A", false)]⟩,
        store := [], gatewayEvents := [],
        unhandledErrors := ["InvalidAddressError"] } :=
  ⟨rfl, rfl,
   invalid_address_rejected true false false [] [] [⟨"A", "a", 1⟩] []
     ⟨false, true, 0, none, none, none, [⟨none, "A", none, none, []⟩],
       [("A", false)]⟩ "bad-address" rfl rfl⟩

/-- Modelled from the spec: the external cart middleware split endpoint
(cart/update with action split), whose implementation is not in src. Per the
spec, splitItem converts one LineItem of quantity q into q independent
single-quantity items replacing the original in cart order; the fresh ids the
platform assigns are a parameter. -/
def splitCartLineItem (freshIds : List String) (physicalItems : List LineItem)
    (lineItemId : String) : List LineItem :=
  physicalItems.flatMap (fun item =>
    if item.id == lineItemId then
      freshIds.map (fun newId => { id := newId, name := item.name, quantity := 1 })
    else [item])

/-- Entry rebuilt for one updated physical item after the split
(consignment-persistence.ts lines 1066-1079): the matching reloaded
consignment when there is one, an empty entry otherwise. -/
def buildEntryForItem (updatedConsignments : List Consignment)
    (item : LineItem) : ConsignmentWithItem :=
  match updatedConsignments.find? (fun consignment =>
      consignment.lineItemIds.contains item.id) with
  | some itemConsignment =>
    { id := some itemConsignment.id, lineItemId := item.id,
      shippingAddress := itemConsignment.shippingAddress,
      selectedShippingOption := itemConsignment.selectedShippingOption,
      availableShippingOptions := itemConsignment.availableShippingOptions }
  | none =>
    { id := none, lineItemId := item.id, shippingAddress := none,
      selectedShippingOption := none, availableShippingOptions := [] }

/-- handleSplitLineItem, middleware variant (consignment-persistence.ts lines
996-1119): a no-op for quantity at most 1 and for an unknown item; otherwise
the middleware splits the cart line item, the checkout is reloaded and one
entry per updated physical item is rebuilt from the reloaded consignments.
Returns the updated physical items and the new entry list. -/
def handleSplitLineItemMw (freshIds : List String)
    (physicalItems : List LineItem) (updatedConsignments : List Consignment)
    (itemConsignments : List ConsignmentWithItem) (lineItemId : String)
    (quantity : Nat) : List LineItem × List ConsignmentWithItem :=
  if quantity ≤ 1 then (physicalItems, itemConsignments)
  else
    match physicalItems.find? (fun item => item.id == lineItemId) with
    | none => (physicalItems, itemConsignments)
    | some _ =>
      let updatedPhysicalItems := splitCartLineItem freshIds physicalItems lineItemId
      (updatedPhysicalItems,
       updatedPhysicalItems.map (buildEntryForItem updatedConsignments))

/-- The rebuilt entry always carries the id of its item. -/
theorem buildEntryForItem_lineItemId (updatedConsignments : List Consignment)
    (item : LineItem) :
    (buildEntryForItem updatedConsignments item).lineItemId = item.id := by
  unfold buildEntryForItem
  cases updatedConsignments.find? (fun consignment =>
      consignment.lineItemIds.contains item.id) <;> rfl

/-- Filtering the rebuilt entries by covered line-item id matches filtering
the items themselves. -/
theorem filter_entries_length (updatedConsignments : List Consignment)
    (freshIds : List String) (l : List LineItem) :
    ((l.map (buildEntryForItem updatedConsignments)).filter
        (fun e => freshIds.contains e.lineItemId)).length =
      (l.filter (fun it => freshIds.contains it.id)).length := by
  induction l with
  | nil => rfl
  | cons x xs ih =>
    simp only [List.map_cons, List.filter_cons, buildEntryForItem_lineItemId]
    cases h : freshIds.contains x.id
    · simp only [h, Bool.false_eq_true, if_neg, not_false_iff]
      exact ih
    · simp only [h, if_pos, List.length_cons]
      rw [ih]

/-- Items not matching the split id pass through the split unchanged. -/
theorem splitCartLineItem_no_match (freshIds : List String) (l : List LineItem)
    (lineItemId : String) (h : ∀ x ∈ l, x.id ≠ lineItemId) :
    l.flatMap (fun item =>
      if item.id == lineItemId then
        freshIds.map (fun newId =>
          ({ id := newId, name := item.name, quantity := 1 } : LineItem))
      else [item]) = l := by
  induction l with
  | nil => rfl
  | cons x xs ih =>
    rw [List.flatMap_cons]
    have hx : (x.id == lineItemId) = false := by
      simpa using h x (List.mem_cons_self _ _)
    rw [hx]
    simp only [Bool.false_eq_true, if_neg, not_false_iff]
    rw [ih (fun y hy => h y (List.mem_cons_of_mem _ hy))]
    rfl

/-- The sum of a constant-one map is the length. -/
theorem sum_map_one {α : Type} (l : List α) :
    (l.map (fun _ => (1 : Nat))).sum = l.length := by
  induction l with
  | nil => rfl
  | cons x xs ih => simp [ih]; omega

/-- C5: splitItem on a line item of quantity q is a no-op when q is at most
one; when q exceeds one it yields exactly q single-quantity entries for the
split item, whose combined quantity equals the original q, and the original
multi-quantity item and its entry are no longer present. The middleware split
of the cart is modelled from the spec with fresh platform-assigned ids. -/
theorem split_yields_single_quantity_entries (freshIds : List String)
    (physicalItems : List LineItem) (updatedConsignments : List Consignment)
    (itemConsignments : List ConsignmentWithItem) (lineItemId : String)
    (quantity : Nat) (originalItem : LineItem)
    (horig_mem : originalItem ∈ physicalItems)
    (horig_id : originalItem.id = lineItemId)
    (hnd : (physicalItems.map (fun i => i.id)).Nodup)
    (hflen : freshIds.length = quantity)
    (hfresh_old : lineItemId ∉ freshIds)
    (hfresh_new : ∀ fid ∈ freshIds, ∀ it ∈ physicalItems, it.id ≠ fid) :
    (quantity ≤ 1 →
      handleSplitLineItemMw freshIds physicalItems updatedConsignments
        itemConsignments lineItemId quantity = (physicalItems, itemConsignments)) ∧
    (1 < quantity →
      ((handleSplitLineItemMw freshIds physicalItems updatedConsignments
          itemConsignments lineItemId quantity).2.filter
          (fun e => freshIds.contains e.lineItemId)).length = quantity ∧
      (∀ it ∈ (handleSplitLineItemMw freshIds physicalItems updatedConsignments
          itemConsignments lineItemId quantity).1,
        freshIds.contains it.id → it.quantity = 1) ∧
      (((handleSplitLineItemMw freshIds physicalItems updatedConsignments
          itemConsignments lineItemId quantity).1.filter
          (fun it => freshIds.contains it.id)).map (fun it => it.quantity)).sum =
        quantity ∧
      (∀ e ∈ (handleSplitLineItemMw freshIds physicalItems updatedConsignments
          itemConsignments lineItemId quantity).2, e.lineItemId ≠ lineItemId) ∧
      (∀ it ∈ (handleSplitLineItemMw freshIds physicalItems updatedConsignments
          itemConsignments lineItemId quantity).1, it.id ≠ lineItemId)) := by
  constructor
  · intro hle
    unfold handleSplitLineItemMw
    rw [if_pos hle]
  · intro hgt
    have hle : ¬(quantity ≤ 1) := by omega
    obtain ⟨s, t, hst⟩ := List.append_of_mem horig_mem
    subst hst
    have hids := hnd
    rw [List.map_append, List.map_cons] at hids
    have hdisj2 := List.disjoint_of_nodup_append hids
    have hcons := (List.nodup_append.mp hids).2.1
    rw [List.nodup_cons] at hcons
    have hsne : ∀ x ∈ s, x.id ≠ lineItemId := by
      intro x hx heq
      exact hdisj2 (List.mem_map_of_mem _ hx)
        (by rw [heq, ← horig_id]; exact List.mem_cons_self _ _)
    have htne : ∀ x ∈ t, x.id ≠ lineItemId := by
      intro x hx heq
      apply hcons.1
      have hox : originalItem.id = x.id := by rw [horig_id, heq]
      rw [hox]
      exact List.mem_map_of_mem _ hx
    have hfind : (s ++ originalItem :: t).find? (fun item => item.id == lineItemId) ≠
        none := by
      intro hnone
      have := List.find?_eq_none.mp hnone originalItem
        (List.mem_append.mpr (Or.inr (List.mem_cons_self _ _)))
      rw [horig_id] at this
      simp at this
    have hsplit : splitCartLineItem freshIds (s ++ originalItem :: t) lineItemId =
        s ++ (freshIds.map (fun newId =>
          ({ id := newId, name := originalItem.name, quantity := 1 } : LineItem))) ++ t := by
      unfold splitCartLineItem
      rw [List.flatMap_append, List.flatMap_cons]
      rw [splitCartLineItem_no_match freshIds s lineItemId hsne]
      rw [splitCartLineItem_no_match freshIds t lineItemId htne]
      have horig : (originalItem.id == lineItemId) = true := by
        rw [horig_id]; simp
      rw [horig]
      simp only [if_pos]
      rw [List.append_assoc]
    have hfresh_s : ∀ x ∈ s, freshIds.contains x.id = false := by
      intro x hx
      by_contra hcon
      have hmem : x.id ∈ freshIds := by
        simpa using Bool.not_eq_false _ |>.mp hcon
      exact hfresh_new x.id hmem x (List.mem_append.mpr (Or.inl hx)) rfl
    have hfresh_t : ∀ x ∈ t, freshIds.contains x.id = false := by
      intro x hx
      by_contra hcon
      have hmem : x.id ∈ freshIds := by
        simpa using Bool.not_eq_false _ |>.mp hcon
      exact hfresh_new x.id hmem x
        (List.mem_append.mpr (Or.inr (List.mem_cons_of_mem _ hx))) rfl
    have hblock_mem : ∀ b ∈ freshIds.map (fun newId =>
        ({ id := newId, name := originalItem.name, quantity := 1 } : LineItem)),
        b.id ∈ freshIds ∧ b.quantity = 1 := by
      intro b hb
      obtain ⟨newId, hnew, hbe⟩ := List.mem_map.mp hb
      rw [← hbe]
      exact ⟨hnew, rfl⟩
    have hresult : handleSplitLineItemMw freshIds (s ++ originalItem :: t)
        updatedConsignments itemConsignments lineItemId quantity =
        (splitCartLineItem freshIds (s ++ originalItem :: t) lineItemId,
         (splitCartLineItem freshIds (s ++ originalItem :: t) lineItemId).map
           (buildEntryForItem updatedConsignments)) := by
      unfold handleSplitLineItemMw
      rw [if_neg hle]
      cases hf : (s ++ originalItem :: t).find? (fun item => item.id == lineItemId) with
      | none => exact absurd hf hfind
      | some witem => rfl
    have h1 : s.filter (fun it => freshIds.contains it.id) = [] :=
      List.filter_eq_nil_iff.mpr (fun x hx => by rw [hfresh_s x hx]; simp)
    have h3 : t.filter (fun it => freshIds.contains it.id) = [] :=
      List.filter_eq_nil_iff.mpr (fun x hx => by rw [hfresh_t x hx]; simp)
    have h2 : (freshIds.map (fun newId =>
        ({ id := newId, name := originalItem.name, quantity := 1 } : LineItem))).filter
          (fun it => freshIds.contains it.id) =
        freshIds.map (fun newId =>
          ({ id := newId, name := originalItem.name, quantity := 1 } : LineItem)) :=
      List.filter_eq_self.mpr (fun b hb => by simpa using (hblock_mem b hb).1)
    have hfilter_items : (splitCartLineItem freshIds (s ++ originalItem :: t)
        lineItemId).filter (fun it => freshIds.contains it.id) =
        freshIds.map (fun newId =>
          ({ id := newId, name := originalItem.name, quantity := 1 } : LineItem)) := by
      rw [hsplit, List.filter_append, List.filter_append, h1, h2, h3]
      simp
    have hitems_ne : ∀ it ∈ splitCartLineItem freshIds (s ++ originalItem :: t)
        lineItemId, it.id ≠ lineItemId := by
      intro it hit
      rw [hsplit] at hit
      rcases List.mem_append.mp hit with hit2 | hit2
      · rcases List.mem_append.mp hit2 with hit3 | hit3
        · exact hsne it hit3
        · obtain ⟨hidm, _⟩ := hblock_mem it hit3
          intro heq
          rw [heq] at hidm
          exact hfresh_old hidm
      · exact htne it hit2
    refine ⟨?_, ?_, ?_, ?_, ?_⟩
    · rw [hresult]
      simp only
      rw [filter_entries_length, hfilter_items, List.length_map, hflen]
    · rw [hresult]
      simp only
      intro it hit hcont
      rw [hsplit] at hit
      rcases List.mem_append.mp hit with hit2 | hit2
      · rcases List.mem_append.mp hit2 with hit3 | hit3
        · rw [hfresh_s it hit3] at hcont
          exact absurd hcont (by simp)
        · exact (hblock_mem it hit3).2
      · rw [hfresh_t it hit2] at hcont
        exact absurd hcont (by simp)
    · rw [hresult]
      simp only
      rw [hfilter_items, List.map_map]
      have hconst : ((fun it => it.quantity) ∘ (fun newId =>
          ({ id := newId, name := originalItem.name, quantity := 1 } : LineItem))) =
          (fun _ => (1 : Nat)) := by
        funext newId
        rfl
      rw [hconst, sum_map_one, hflen]
    · rw [hresult]
      simp only
      intro e he heq
      obtain ⟨x, hx, hxe⟩ := List.mem_map.mp he
      have hlid : e.lineItemId = x.id := by
        rw [← hxe, buildEntryForItem_lineItemId]
      rw [hlid] at heq
      exact hitems_ne x hx heq
    · rw [hresult]
      simp only
      exact hitems_ne

/-- Witness for C5: splitting item B of quantity 2 into fresh items B1, B2. -/
theorem split_yields_single_quantity_entries_witness :
    ((⟨"B", "b", 2⟩ : LineItem) ∈ ([⟨"A", "a", 1⟩, ⟨"B", "b", 2⟩] : List LineItem)) ∧
    ((([⟨"A", "a", 1⟩, ⟨"B", "b", 2⟩] : List LineItem).map (fun i => i.id)).Nodup) ∧
    ((2 ≤ 1 →
      handleSplitLineItemMw ["B1", "B2"] [⟨"A", "a", 1⟩, ⟨"B", "b", 2⟩] [] [] "B" 2 =
        ([⟨"A", "a", 1⟩, ⟨"B", "b", 2⟩], [])) ∧
    (1 < 2 →
      ((handleSplitLineItemMw ["B1", "B2"] [⟨"A", "a", 1⟩, ⟨"B", "b", 2⟩] [] []
          "B" 2).2.filter
          (fun e => (["B1", "B2"] : List String).contains e.lineItemId)).length = 2 ∧
      (∀ it ∈ (handleSplitLineItemMw ["B1", "B2"] [⟨"A", "a", 1⟩, ⟨"B", "b", 2⟩]
          [] [] "B" 2).1,
        (["B1", "B2"] : List String).contains it.id → it.quantity = 1) ∧
      (((handleSplitLineItemMw ["B1", "B2"] [⟨"A", "a", 1⟩, ⟨"B", "b", 2⟩] [] []
          "B" 2).1.filter
          (fun it => (["B1", "B2"] : List String).contains it.id)).map
          (fun it => it.quantity)).sum = 2 ∧
      (∀ e ∈ (handleSplitLineItemMw ["B1", "B2"] [⟨"A", "a", 1⟩, ⟨"B", "b", 2⟩]
          [] [] "B" 2).2, e.lineItemId ≠ "B") ∧
      (∀ it ∈ (handleSplitLineItemMw ["B1", "B2"] [⟨"A", "a", 1⟩, ⟨"B", "b", 2⟩]
          [] [] "B" 2).1, it.id ≠ "B"))) :=
  ⟨by decide, by decide,
   split_yields_single_quantity_entries ["B1", "B2"]
     [⟨"A", "a", 1⟩, ⟨"B", "b", 2⟩] [] [] "B" 2 ⟨"B", "b", 2⟩
     (by decide) (by decide) (by decide) (by decide) (by decide) (by decide)⟩

end MMCheckout
